import Mathlib

/-!
CodeJourney: the fallback time-complexity analyzer.

A shallow embedding of `backend/utils/geminiAI.js` (`generateFallbackAnalysis`
with its helper generators, and `analyzeTimeComplexity` from the answer of the
AI service on) and of `analyzeComplexityHandler` of
`backend/controllers/aiToolsController.js`, followed by theorems about them.

JavaScript strings are embedded as Lean strings (sequences of characters).
The built-ins of the runtime that the code calls (`includes`, `toLowerCase`,
`split`, `trim`, `String.prototype.match` with the loop pattern) are embedded
as functions on the character lists.
-/

namespace CodeJourney

set_option maxRecDepth 100000

/-! ## Built-ins of the JavaScript runtime -/

/-- The lower-case mapping of the runtime for one character outside ASCII, given
the characters before it, the character itself and the characters after it
(Unicode case data, with its context rules). It is a table of the runtime and
is taken as a parameter: the theorems hold for every such table. -/
abbrev UnicodeLower := List Char → Char → List Char → List Char

/-- The table that leaves every character outside ASCII unchanged. -/
def UnicodeLower.keep : UnicodeLower := fun _ c _ => [c]

/-- Lower-casing of one character in its context: an ASCII character maps to
its ASCII lower-case form whatever the context, any other one through the table. -/
def lowerChar (u : UnicodeLower) (before : List Char) (c : Char) (after : List Char) :
    List Char :=
  if c.toNat < 128 then [c.toLower] else u before c after

/-- Lower-casing of the characters `s` that follow the characters `before`. -/
def lowerFrom (u : UnicodeLower) : List Char → List Char → List Char
  | _, [] => []
  | before, c :: rest => lowerChar u before c rest ++ lowerFrom u (before ++ [c]) rest

/-- `s.toLowerCase()` -/
def toLowerCase (u : UnicodeLower) (s : String) : String :=
  String.mk (lowerFrom u [] s.toList)

/-- Whether `pat` occurs in `s` as a contiguous run, on character lists. -/
def includesList (pat : List Char) : List Char → Bool
  | [] => pat.isEmpty
  | c :: rest => pat.isPrefixOf (c :: rest) || includesList pat rest

/-- `s.includes(pat)` -/
def includes (s pat : String) : Bool :=
  includesList pat.toList s.toList

/-- The characters matched by `\s` in a regular expression, which are also the
ones removed by `trim()`: white space and line terminators. -/
def isWhiteSpace (c : Char) : Bool :=
  let n := c.toNat
  n = 0x09 || n = 0x0A || n = 0x0B || n = 0x0C || n = 0x0D || n = 0x20 || n = 0xA0 ||
  n = 0x1680 || (0x2000 ≤ n && n ≤ 0x200A) || n = 0x2028 || n = 0x2029 ||
  n = 0x202F || n = 0x205F || n = 0x3000 || n = 0xFEFF

/-- `s.trim()` on character lists -/
def trimList (s : List Char) : List Char :=
  ((s.dropWhile isWhiteSpace).reverse.dropWhile isWhiteSpace).reverse

/-- `s.split(sep)` for a one-character separator, on character lists: the
pieces between the separators, a single empty piece for the empty string. -/
def splitList (sep : Char) : List Char → List (List Char)
  | [] => [[]]
  | c :: rest =>
    if c = sep then [] :: splitList sep rest
    else
      match splitList sep rest with
      | piece :: pieces => (c :: piece) :: pieces
      | [] => [[c]]

/-- The number of characters matched at the start of `s` by the tail
`\s*\([^)]*\)` of each alternative of the loop pattern. Both stars are greedy
and are followed by a character outside their class, so giving characters back
never helps: the white space is taken whole, then `(`, then everything up to
the first `)`, which must exist. -/
def matchHeader (s : List Char) : Option Nat :=
  match s.dropWhile isWhiteSpace with
  | '(' :: r =>
    match r.dropWhile (fun c => c != ')') with
    | ')' :: _ =>
      some ((s.takeWhile isWhiteSpace).length + 1 +
        (r.takeWhile (fun c => c != ')')).length + 1)
    | _ => none
  | _ => none

/-- One alternative of the loop pattern at the start of `s`: the literal
keyword, then the header. -/
def matchKeyword (kw s : List Char) : Option Nat :=
  if kw.isPrefixOf s then (matchHeader (s.drop kw.length)).map (fun n => kw.length + n)
  else none

/-- The length of the match of
`/for\s*\([^)]*\)|while\s*\([^)]*\)|forEach\s*\([^)]*\)/` at the start of `s`,
the alternatives tried from left to right. -/
def matchLoopAt (s : List Char) : Option Nat :=
  (matchKeyword "for".toList s).orElse fun _ =>
  (matchKeyword "while".toList s).orElse fun _ =>
  matchKeyword "forEach".toList s

/-- The scan of a global match: `skip` characters still belong to the match
found last; after them the pattern is tried at every position from left to
right, and the scan resumes where a match ends. -/
def matchLoopsFrom : Nat → List Char → List (List Char)
  | _, [] => []
  | skip + 1, _ :: rest => matchLoopsFrom skip rest
  | 0, c :: rest =>
    match matchLoopAt (c :: rest) with
    | some n => (c :: rest).take n :: matchLoopsFrom (n - 1) rest
    | none => matchLoopsFrom 0 rest

/-- `code.match(/for\s*\([^)]*\)|while\s*\([^)]*\)|forEach\s*\([^)]*\)/g) || []` -/
def loopPatterns (code : String) : List String :=
  (matchLoopsFrom 0 code.toList).map String.mk

/-! ## Signals of `generateFallbackAnalysis` -/

/-- `code.split('\n').filter(line => line.trim().length > 0)` -/
def codeLines (code : String) : List String :=
  ((splitList '\n' code.toList).filter (fun line => decide ((trimList line).length > 0))).map
    String.mk

/-- `nestedLoopCount = loopPatterns.length` -/
def nestedLoopCount (code : String) : Nat :=
  (loopPatterns code).length

/-- `hasRecursion` -/
def hasRecursion (code : String) : Bool :=
  includes code "function" && includes code "(" && includes code ")" && includes code "return"

/-- `hasSorting` -/
def hasSorting (u : UnicodeLower) (code : String) : Bool :=
  includes (toLowerCase u code) "sort" || includes (toLowerCase u code) "bubble" ||
  includes (toLowerCase u code) "quick" || includes (toLowerCase u code) "merge"

/-- `hasSearching` -/
def hasSearching (u : UnicodeLower) (code : String) : Bool :=
  includes (toLowerCase u code) "search" || includes (toLowerCase u code) "find" ||
  includes (toLowerCase u code) "indexof"

/-- `hasBinarySearch` -/
def hasBinarySearch (u : UnicodeLower) (code : String) : Bool :=
  includes (toLowerCase u code) "binary" && includes (toLowerCase u code) "search"

/-- `hasDynamicProgramming` -/
def hasDynamicProgramming (u : UnicodeLower) (code : String) : Bool :=
  includes (toLowerCase u code) "memo" || includes (toLowerCase u code) "dp" ||
  includes (toLowerCase u code) "cache"

/-- `hasTreeTraversal` -/
def hasTreeTraversal (u : UnicodeLower) (code : String) : Bool :=
  includes (toLowerCase u code) "tree" || includes (toLowerCase u code) "node" ||
  includes (toLowerCase u code) "traverse"

/-- `hasGraphAlgo` -/
def hasGraphAlgo (u : UnicodeLower) (code : String) : Bool :=
  includes (toLowerCase u code) "graph" || includes (toLowerCase u code) "bfs" ||
  includes (toLowerCase u code) "dfs"

/-! ## Classification and complexity estimate -/

/-- The `algorithmType` chain of `generateFallbackAnalysis`. -/
def algorithmType (u : UnicodeLower) (code : String) : String :=
  if hasSorting u code then "Sorting Algorithm"
  else if hasBinarySearch u code then "Binary Search Algorithm"
  else if hasSearching u code then "Search Algorithm"
  else if hasDynamicProgramming u code then "Dynamic Programming Algorithm"
  else if hasTreeTraversal u code then "Tree Traversal Algorithm"
  else if hasGraphAlgo u code then "Graph Algorithm"
  else if hasRecursion code then "Recursive Algorithm"
  else if nestedLoopCount code > 1 then "Nested Loop Algorithm"
  else "General Algorithm"

/-- The three variables `timeComplexity`, `spaceComplexity`, `efficiency`. -/
structure Estimate where
  timeComplexity : String
  spaceComplexity : String
  efficiency : String
  deriving DecidableEq, Repr

/-- The estimate chain of `generateFallbackAnalysis`: the variables start at
`O(n)`, `O(1)`, `Good` and each branch assigns some of them. -/
def estimate (u : UnicodeLower) (code : String) : Estimate :=
  let init : Estimate := ⟨"O(n)", "O(1)", "Good"⟩
  if hasBinarySearch u code then
    { init with timeComplexity := "O(log n)", efficiency := "Excellent" }
  else if hasSorting u code then
    if includes (toLowerCase u code) "bubble" then
      { init with timeComplexity := "O(n²)", efficiency := "Poor" }
    else if includes (toLowerCase u code) "quick" || includes (toLowerCase u code) "merge" then
      { init with timeComplexity := "O(n log n)", efficiency := "Good" }
    else
      { init with timeComplexity := "O(n log n)", efficiency := "Good" }
  else if nestedLoopCount code > 1 then
    { init with timeComplexity := "O(n²)", efficiency := "Fair" }
  else if hasRecursion code then
    { init with timeComplexity := "O(2ⁿ)", spaceComplexity := "O(n)", efficiency := "Poor" }
  else if hasDynamicProgramming u code then
    { init with timeComplexity := "O(n²)", spaceComplexity := "O(n²)", efficiency := "Good" }
  else if hasTreeTraversal u code || hasGraphAlgo u code then
    { init with timeComplexity := "O(V + E)", spaceComplexity := "O(V)", efficiency := "Good" }
  else init

/-- The bubble sort sample of `test-complexity.js`. -/
def bubbleSortSample : String :=
  "function bubbleSort(arr) \x7b\n  const n = arr.length;\n  for (let i = 0; i < n - 1; i++) \x7b\n    for (let j = 0; j < n - i - 1; j++) \x7b\n      if (arr[j] > arr[j + 1]) \x7b\n        [arr[j], arr[j + 1]] = [arr[j + 1], arr[j]];\n      \x7d\n    \x7d\n  \x7d\n  return arr;\n\x7d"

/-! ## Narrative and suggestion generators -/

/-- `generateDetailedTimeAnalysis` -/
def generateDetailedTimeAnalysis (u : UnicodeLower) (code timeComplexity : String)
    (nestedLoopCount : Nat) (hasRecursion : Bool) : String :=
  let analysis := "Based on code analysis, this algorithm has " ++ timeComplexity ++
    " time complexity. "
  let analysis := if nestedLoopCount > 1 then
      analysis ++ "Nested loops detected (" ++ toString nestedLoopCount ++ " loop structures). "
    else analysis
  let analysis := if hasRecursion then analysis ++ "Recursive calls detected. " else analysis
  let analysis := if includes (toLowerCase u code) "sort" then
      analysis ++ "Sorting algorithm identified. "
    else analysis
  let analysis := if includes (toLowerCase u code) "search" then
      analysis ++ "Search algorithm identified. "
    else analysis
  analysis ++ "The algorithm processes the input data through " ++
    toString (if nestedLoopCount = 0 then 1 else nestedLoopCount) ++ " iteration" ++
    (if nestedLoopCount ≠ 1 then "s" else "") ++ "."

/-- `generateDetailedSpaceAnalysis` -/
def generateDetailedSpaceAnalysis (spaceComplexity : String)
    (hasRecursion hasDynamicProgramming : Bool) : String :=
  let analysis := "The algorithm uses " ++ spaceComplexity ++ " space complexity. "
  let analysis := if hasRecursion then
      analysis ++ "Recursive call stack contributes to space usage. "
    else analysis
  let analysis := if hasDynamicProgramming then
      analysis ++ "Dynamic programming table/memoization requires additional space. "
    else analysis
  if spaceComplexity = "O(1)" then analysis ++ "Minimal additional space required."
  else analysis ++ "Space usage grows with input size."

/-- An entry of `optimizationSuggestions`. -/
structure Suggestion where
  suggestion : String
  impact : String
  implementation : String
  tradeoff : String
  deriving DecidableEq, Repr

/-- `generateOptimizationSuggestions` -/
def generateOptimizationSuggestions (algorithmType timeComplexity : String)
    (hasRecursion : Bool) (nestedLoopCount : Nat) : List Suggestion :=
  let suggestions : List Suggestion := []
  let suggestions := if timeComplexity = "O(n²)" ∧ nestedLoopCount > 1 then
      suggestions ++ [{
        suggestion := "Reduce nested loops"
        impact := "Can improve time complexity from O(n²) to O(n log n)"
        implementation := "Use more efficient algorithms or data structures"
        tradeoff := "May increase code complexity" }]
    else suggestions
  let suggestions := if hasRecursion then
      suggestions ++ [{
        suggestion := "Implement memoization"
        impact := "Can reduce time complexity from exponential to polynomial"
        implementation := "Cache results of recursive calls"
        tradeoff := "Uses more memory" }]
    else suggestions
  let suggestions := if includes algorithmType "Sorting" then
      suggestions ++ [{
        suggestion := "Use built-in sorting"
        impact := "Leverage optimized language implementations"
        implementation := "Use language-specific sort methods"
        tradeoff := "Less control over algorithm" }]
    else suggestions
  suggestions

/-- An entry of `codeBreakdown`. -/
structure BreakdownEntry where
  line : String
  operation : String
  complexity : String
  explanation : String
  deriving DecidableEq, Repr

/-- `generateCodeBreakdown` (its first parameter `code` is not read) -/
def generateCodeBreakdown (timeComplexity : String) (nestedLoopCount : Nat) :
    List BreakdownEntry :=
  let breakdown : List BreakdownEntry := [{
    line := "1"
    operation := "Code initialization"
    complexity := "O(1)"
    explanation := "Constant time setup operations" }]
  if nestedLoopCount > 0 then
    breakdown ++ [{
      line := "2"
      operation := "Main algorithm logic (" ++ toString nestedLoopCount ++ " loop" ++
        (if nestedLoopCount ≠ 1 then "s" else "") ++ ")"
      complexity := timeComplexity
      explanation := "Main computational complexity: " ++ timeComplexity }]
  else breakdown

/-- `generateUseCases` -/
def generateUseCases (algorithmType efficiency : String) : List String :=
  let useCases : List String := []
  let useCases := if efficiency = "Excellent" ∨ efficiency = "Good" then
      useCases ++ ["Production applications", "Large-scale data processing"]
    else useCases
  let useCases := useCases ++
    ["Small to medium-sized datasets", "Prototyping and development", "Educational purposes"]
  let useCases := if includes algorithmType "Sorting" then
      useCases ++ ["Data organization", "Database operations"]
    else useCases
  let useCases := if includes algorithmType "Search" then
      useCases ++ ["Information retrieval", "Lookup operations"]
    else useCases
  useCases

/-- `generateLimitations` (its first parameter `algorithmType` is not read) -/
def generateLimitations (efficiency timeComplexity : String) : List String :=
  let limitations : List String := []
  let limitations := if efficiency = "Poor" then
      limitations ++
        ["May be slow for large inputs", "Not suitable for production use with large datasets"]
    else limitations
  let limitations := if timeComplexity = "O(n²)" ∨ timeComplexity = "O(2ⁿ)" then
      limitations ++ ["Poor scalability with large inputs"]
    else limitations
  limitations ++ ["Memory usage could be optimized", "Consider using built-in language functions"]

/-! ## The report -/

/-- The `timeComplexity` object of the report. -/
structure TimeSection where
  bestCase : String
  averageCase : String
  worstCase : String
  detailedAnalysis : String
  factors : List String
  examples : List String
  deriving DecidableEq, Repr

/-- The `spaceComplexity` object of the report. -/
structure SpaceSection where
  auxiliary : String
  total : String
  detailedAnalysis : String
  factors : List String
  memoryUsage : String
  deriving DecidableEq, Repr

/-- The `algorithmAnalysis` object of the report. -/
structure AlgorithmSection where
  algorithmType : String
  efficiency : String
  optimizationOpportunities : List Suggestion
  tradeoffs : List String
  comparison : String
  deriving DecidableEq, Repr

/-- The `realWorldImplications` object of the report. -/
structure ImplicationsSection where
  scalability : String
  performance : String
  useCases : List String
  limitations : List String
  deriving DecidableEq, Repr

/-- The `visualization` object of the report. -/
structure VisualizationSection where
  complexityGraph : String
  comparisonChart : String
  deriving DecidableEq, Repr

/-- The object returned by `generateFallbackAnalysis`. -/
structure AnalysisReport where
  overview : String
  timeComplexity : TimeSection
  spaceComplexity : SpaceSection
  algorithmAnalysis : AlgorithmSection
  codeBreakdown : List BreakdownEntry
  optimizationSuggestions : List Suggestion
  realWorldImplications : ImplicationsSection
  visualization : VisualizationSection
  deriving DecidableEq, Repr

/-- `generateFallbackAnalysis`. The locals `hasNestedLoops`, `hasArrayOperations`
and `hasObjectOperations` of the source are never read and are left out. -/
def generateFallbackAnalysis (u : UnicodeLower) (code language : String) : AnalysisReport :=
  let codeLines := codeLines code
  let nestedLoopCount := nestedLoopCount code
  let hasRecursion := hasRecursion code
  let hasDynamicProgramming := hasDynamicProgramming u code
  let algorithmType := algorithmType u code
  let timeComplexity := (estimate u code).timeComplexity
  let spaceComplexity := (estimate u code).spaceComplexity
  let efficiency := (estimate u code).efficiency
  let detailedTimeAnalysis :=
    generateDetailedTimeAnalysis u code timeComplexity nestedLoopCount hasRecursion
  let detailedSpaceAnalysis :=
    generateDetailedSpaceAnalysis spaceComplexity hasRecursion hasDynamicProgramming
  { overview := "This appears to be a " ++ toLowerCase u algorithmType ++ " written in " ++
      language ++ ". The code contains " ++ toString codeLines.length ++
      " lines of logic with " ++ toString nestedLoopCount ++ " loop structures."
    timeComplexity := {
      bestCase := timeComplexity ++ " - Best case scenario"
      averageCase := timeComplexity ++ " - Average case scenario"
      worstCase := timeComplexity ++ " - Worst case scenario"
      detailedAnalysis := detailedTimeAnalysis
      factors := ["Input size",
        if nestedLoopCount > 1 then "Nested iterations" else "Single iterations",
        if hasRecursion then "Recursive depth" else "Iterative approach"]
      examples := ["Small input (n=10): Fast execution",
        "Medium input (n=1000): Moderate performance", "Large input (n=100000): May be slow"] }
    spaceComplexity := {
      auxiliary := spaceComplexity ++ " - Additional space required"
      total := spaceComplexity ++ " - Total space complexity"
      detailedAnalysis := detailedSpaceAnalysis
      factors := ["Input storage", if hasRecursion then "Call stack" else "Variables",
        "Temporary data structures"]
      memoryUsage := "Memory usage is " ++
        (if spaceComplexity = "O(1)" then "constant"
         else if spaceComplexity = "O(n)" then "linear" else "quadratic") ++
        " with respect to input size." }
    algorithmAnalysis := {
      algorithmType := algorithmType
      efficiency := efficiency
      optimizationOpportunities :=
        generateOptimizationSuggestions algorithmType timeComplexity hasRecursion nestedLoopCount
      tradeoffs := ["Time vs Space complexity tradeoffs", "Readability vs Performance",
        "Memory usage vs Speed"]
      comparison := "This implementation is " ++ toLowerCase u efficiency ++
        " compared to optimized versions of similar algorithms." }
    codeBreakdown := generateCodeBreakdown timeComplexity nestedLoopCount
    optimizationSuggestions :=
      generateOptimizationSuggestions algorithmType timeComplexity hasRecursion nestedLoopCount
    realWorldImplications := {
      scalability := "This algorithm " ++
        (if efficiency = "Poor" then "does not scale well"
         else if efficiency = "Excellent" then "scales very well"
         else "scales moderately well") ++ " with large inputs."
      performance := "Performance is " ++ toLowerCase u efficiency ++ " for typical use cases."
      useCases := generateUseCases algorithmType efficiency
      limitations := generateLimitations efficiency timeComplexity }
    visualization := {
      complexityGraph := "The complexity grows " ++
        (if timeComplexity = "O(1)" then "constantly"
         else if timeComplexity = "O(log n)" then "logarithmically"
         else if timeComplexity = "O(n)" then "linearly"
         else if timeComplexity = "O(n log n)" then "linearithmically"
         else if timeComplexity = "O(n²)" then "quadratically"
         else "exponentially") ++ " with input size."
      comparisonChart := "Compared to optimal solutions, this is " ++ toLowerCase u efficiency ++
        " in terms of both time and space complexity." } }

/-! ## `analyzeTimeComplexity` -/

/-- A JavaScript `Error`, as far as the code reads it: its message. -/
structure JsError where
  message : String
  deriving DecidableEq, Repr

/-- What `analyzeTimeComplexity` returns: the value parsed from the answer of
the AI service, or the report of `generateFallbackAnalysis`. -/
inductive Analysis (J : Type) where
  | parsed (value : J)
  | fallback (report : AnalysisReport)

/-- `response.match(/\{[\s\S]*\}/)`: from the first opening brace to the last
closing brace after it, when there is one. -/
def jsonMatch (response : List Char) : Option (List Char) :=
  match response.dropWhile (fun c => c != '\x7b') with
  | '\x7b' :: r =>
    if r.contains '\x7d' then some ('\x7b' :: (r.reverse.dropWhile (fun c => c != '\x7d')).reverse)
    else none
  | _ => none

/-- `analyzeTimeComplexity`. The outcome of `await callGeminiAPI(prompt)` (the
text of the answer, or the error thrown) and `JSON.parse` (`none` when it
throws) are inputs of the model. An error thrown is the left side of the
result. -/
def analyzeTimeComplexity {J : Type} (u : UnicodeLower) (apiOutcome : Except JsError String)
    (jsonParse : String → Option J) (code language : String) : Except JsError (Analysis J) :=
  match apiOutcome with
  | .ok response =>
    match jsonMatch response.toList with
    | some m =>
      match jsonParse (String.mk m) with
      | some value => .ok (.parsed value)
      | none => .ok (.fallback (generateFallbackAnalysis u code language))
    | none =>
      match jsonParse response with
      | some value => .ok (.parsed value)
      | none => .ok (.fallback (generateFallbackAnalysis u code language))
  | .error error =>
    if error.message ≠ "" ∧ (includes error.message "503" || includes error.message "429" ||
        includes error.message "UNAVAILABLE") then
      .ok (.fallback (generateFallbackAnalysis u code language))
    else
      .error ⟨"Failed to analyze time complexity"⟩

/-! ## `analyzeComplexityHandler` -/

/-- What `analyzeComplexityHandler` sends: the status and the fields of the JSON
body. `data` and `isFallback` are absent from the bodies of the failures. -/
structure HandlerResponse (J : Type) where
  status : Nat
  success : Bool
  message : String
  data : Option (Analysis J)
  isFallback : Option Bool

/-- `analysis.overview && analysis.overview.includes('appears to be')`, as the
truthiness of its value. On a report of `generateFallbackAnalysis` the overview
is a string. On a value parsed from the answer of the AI service the outcome
(the truthiness, or the error thrown by reading a property of `null` or by
calling an `includes` that is no function) depends on that value alone and is
the input `flagOf` of the model. -/
def isFallback {J : Type} (flagOf : J → Except JsError Bool) :
    Analysis J → Except JsError Bool
  | .fallback report =>
    .ok (decide (report.overview ≠ "") && includes report.overview "appears to be")
  | .parsed value => flagOf value

/-- The `catch` block of `analyzeComplexityHandler`. -/
def failureResponse {J : Type} (error : JsError) : HandlerResponse J :=
  let errorMessage :=
    if error.message ≠ "" ∧ includes error.message "503" then
      "AI service is temporarily unavailable. Please try again in a few minutes."
    else if error.message ≠ "" ∧ includes error.message "429" then
      "Too many requests. Please wait a moment before trying again."
    else if error.message ≠ "" ∧ includes error.message "UNAVAILABLE" then
      "AI service is currently unavailable. Please try again later."
    else "Failed to analyze time complexity. Please try again."
  { status := 500, success := false, message := errorMessage, data := none, isFallback := none }

/-- `analyzeComplexityHandler`, on the fields `code` and `language` of the
request body (`none` for a field that is absent). -/
def analyzeComplexityHandler {J : Type} (u : UnicodeLower) (apiOutcome : Except JsError String)
    (jsonParse : String → Option J) (flagOf : J → Except JsError Bool)
    (code language : Option String) : HandlerResponse J :=
  let language := language.getD "javascript"
  match code with
  | none =>
    { status := 400, success := false, message := "Code is required", data := none,
      isFallback := none }
  | some code =>
    if code = "" then
      { status := 400, success := false, message := "Code is required", data := none,
        isFallback := none }
    else
      match analyzeTimeComplexity u apiOutcome jsonParse code language with
      | .ok analysis =>
        match isFallback flagOf analysis with
        | .ok flag =>
          { status := 200
            success := true
            message :=
              if flag then
                "Time complexity analysis completed using fallback analysis (AI service temporarily unavailable)"
              else "Time complexity analysis completed successfully"
            data := some analysis
            isFallback := some flag }
        | .error error => failureResponse error
      | .error error => failureResponse error

/-! ## The words of the specification -/

/-- The word `w` occurs in `text` as a contiguous run of characters. -/
def occurs (w text : String) : Prop :=
  w.toList <:+: text.toList

/-- The fixed vocabulary of the signal words. -/
def vocabulary : List String :=
  ["sort", "bubble", "quick", "merge", "search", "find", "indexof", "binary", "memo", "dp",
   "cache", "tree", "node", "traverse", "graph", "bfs", "dfs"]

/-- The recursion signal in the words of the specification: a function keyword,
an opening parenthesis, a closing parenthesis and a `return`, anywhere. -/
def recursionSignal (code : String) : Prop :=
  occurs "function" code ∧ occurs "(" code ∧ occurs ")" code ∧ occurs "return" code

/-- The label of the first rule of a priority list whose signal holds, the
default label when none holds. -/
def firstMatch (rules : List (Bool × String)) (default : String) : String :=
  match rules.find? (fun rule => rule.1) with
  | some rule => rule.2
  | none => default

/-- The priority list of the classification, as the specification gives it. -/
def classificationRules (u : UnicodeLower) (code : String) : List (Bool × String) :=
  [(hasSorting u code, "Sorting Algorithm"),
   (hasBinarySearch u code, "Binary Search Algorithm"),
   (hasSearching u code, "Search Algorithm"),
   (hasDynamicProgramming u code, "Dynamic Programming Algorithm"),
   (hasTreeTraversal u code, "Tree Traversal Algorithm"),
   (hasGraphAlgo u code, "Graph Algorithm"),
   (hasRecursion code, "Recursive Algorithm"),
   (decide (nestedLoopCount code > 1), "Nested Loop Algorithm")]

/-- The chain of the complexity inference over the raw signals, as the
specification gives it; `graphTime` is the time label of the tree/graph rule. -/
def estimateChain (graphTime : String) (binarySearch sort bubble : Bool)
    (loopConstructCount : Nat) (recursion dynamicProgramming tree graph : Bool) : Estimate :=
  if binarySearch then ⟨"O(log n)", "O(1)", "Excellent"⟩
  else if sort then (if bubble then ⟨"O(n²)", "O(1)", "Poor"⟩ else ⟨"O(n log n)", "O(1)", "Good"⟩)
  else if loopConstructCount > 1 then ⟨"O(n²)", "O(1)", "Fair"⟩
  else if recursion then ⟨"O(2ⁿ)", "O(n)", "Poor"⟩
  else if dynamicProgramming then ⟨"O(n²)", "O(n²)", "Good"⟩
  else if tree || graph then ⟨graphTime, "O(V)", "Good"⟩
  else ⟨"O(n)", "O(1)", "Good"⟩

/-- The chain of the complexity inference on the signals of `code`. -/
def estimateChainOf (graphTime : String) (u : UnicodeLower) (code : String) : Estimate :=
  estimateChain graphTime (hasBinarySearch u code) (hasSorting u code)
    (includes (toLowerCase u code) "bubble") (nestedLoopCount code) (hasRecursion code)
    (hasDynamicProgramming u code) (hasTreeTraversal u code) (hasGraphAlgo u code)

/-- The report carries the time label `time` in its best, average and worst case. -/
def AnalysisReport.hasTime (r : AnalysisReport) (time : String) : Prop :=
  r.timeComplexity.bestCase = time ++ " - Best case scenario" ∧
  r.timeComplexity.averageCase = time ++ " - Average case scenario" ∧
  r.timeComplexity.worstCase = time ++ " - Worst case scenario"

/-- The report carries the space label `space` in its auxiliary and total space. -/
def AnalysisReport.hasSpace (r : AnalysisReport) (space : String) : Prop :=
  r.spaceComplexity.auxiliary = space ++ " - Additional space required" ∧
  r.spaceComplexity.total = space ++ " - Total space complexity"

/-- The report carries the estimate `e`: its time, space and efficiency labels. -/
def AnalysisReport.shows (r : AnalysisReport) (e : Estimate) : Prop :=
  r.hasTime e.timeComplexity ∧ r.hasSpace e.spaceComplexity ∧
  r.algorithmAnalysis.efficiency = e.efficiency

instance (r : AnalysisReport) (time : String) : Decidable (r.hasTime time) := by
  unfold AnalysisReport.hasTime; infer_instance

instance (r : AnalysisReport) (space : String) : Decidable (r.hasSpace space) := by
  unfold AnalysisReport.hasSpace; infer_instance

instance (r : AnalysisReport) (e : Estimate) : Decidable (r.shows e) := by
  unfold AnalysisReport.shows; infer_instance

/-- A character that lower-casing leaves as it is, in every context. -/
def stableChar (c : Char) : Prop :=
  c.toNat < 128 ∧ c.toLower = c

instance (c : Char) : Decidable (stableChar c) := by
  unfold stableChar; infer_instance

/-- Every text of a suggestion is a non-empty string. -/
def Suggestion.populated (s : Suggestion) : Prop :=
  s.suggestion ≠ "" ∧ s.impact ≠ "" ∧ s.implementation ≠ "" ∧ s.tradeoff ≠ ""

/-- Every text of a breakdown entry is a non-empty string. -/
def BreakdownEntry.populated (e : BreakdownEntry) : Prop :=
  e.line ≠ "" ∧ e.operation ≠ "" ∧ e.complexity ≠ "" ∧ e.explanation ≠ ""

/-- Every text of the `timeComplexity` object is a non-empty string. -/
def TimeSection.populated (t : TimeSection) : Prop :=
  t.bestCase ≠ "" ∧ t.averageCase ≠ "" ∧ t.worstCase ≠ "" ∧ t.detailedAnalysis ≠ "" ∧
  (∀ f ∈ t.factors, f ≠ "") ∧ (∀ x ∈ t.examples, x ≠ "")

/-- Every text of the `spaceComplexity` object is a non-empty string. -/
def SpaceSection.populated (t : SpaceSection) : Prop :=
  t.auxiliary ≠ "" ∧ t.total ≠ "" ∧ t.detailedAnalysis ≠ "" ∧ (∀ f ∈ t.factors, f ≠ "") ∧
  t.memoryUsage ≠ ""

/-- Every text of the `algorithmAnalysis` object is a non-empty string. -/
def AlgorithmSection.populated (a : AlgorithmSection) : Prop :=
  a.algorithmType ≠ "" ∧ a.efficiency ≠ "" ∧ (∀ s ∈ a.optimizationOpportunities, s.populated) ∧
  (∀ t ∈ a.tradeoffs, t ≠ "") ∧ a.comparison ≠ ""

/-- Every text of the `realWorldImplications` object is a non-empty string. -/
def ImplicationsSection.populated (i : ImplicationsSection) : Prop :=
  i.scalability ≠ "" ∧ i.performance ≠ "" ∧ (∀ c ∈ i.useCases, c ≠ "") ∧
  (∀ l ∈ i.limitations, l ≠ "")

/-- Every text of the `visualization` object is a non-empty string. -/
def VisualizationSection.populated (v : VisualizationSection) : Prop :=
  v.complexityGraph ≠ "" ∧ v.comparisonChart ≠ ""

/-- The report is fully populated: every text in it, in its objects and in its
lists, is a non-empty string. That no field is missing or null is carried by
the type of the report, whose fields are all mandatory. -/
def AnalysisReport.populated (r : AnalysisReport) : Prop :=
  r.overview ≠ "" ∧ r.timeComplexity.populated ∧ r.spaceComplexity.populated ∧
  r.algorithmAnalysis.populated ∧ (∀ e ∈ r.codeBreakdown, e.populated) ∧
  (∀ s ∈ r.optimizationSuggestions, s.populated) ∧ r.realWorldImplications.populated ∧
  r.visualization.populated

/-- The message carries one of the markers of a transient failure. -/
def transientMarker (message : String) : Prop :=
  occurs "503" message ∨ occurs "429" message ∨ occurs "UNAVAILABLE" message

/-- The text of the answer that `analyzeTimeComplexity` hands to `JSON.parse`,
parsed: the span of `jsonMatch` when there is one, the whole answer otherwise. -/
def responseValue {J : Type} (jsonParse : String → Option J) (response : String) : Option J :=
  match jsonMatch response.toList with
  | some m => jsonParse (String.mk m)
  | none => jsonParse response

/-- A `JSON.parse` that throws on every text; it agrees with the one of the
runtime on the texts that are not JSON. -/
def parseNothing : String → Option Unit := fun _ => none

/-- A stand-in for `JSON.parse` that accepts every text and hands it back as the
parsed value. -/
def parseAsText : String → Option String := fun text => some text

/-- The nested-loop suggestion of `generateOptimizationSuggestions`. -/
def reduceNestedLoops : Suggestion :=
  { suggestion := "Reduce nested loops"
    impact := "Can improve time complexity from O(n²) to O(n log n)"
    implementation := "Use more efficient algorithms or data structures"
    tradeoff := "May increase code complexity" }

/-- The memoization suggestion of `generateOptimizationSuggestions`. -/
def implementMemoization : Suggestion :=
  { suggestion := "Implement memoization"
    impact := "Can reduce time complexity from exponential to polynomial"
    implementation := "Cache results of recursive calls"
    tradeoff := "Uses more memory" }

/-- The built-in sort suggestion of `generateOptimizationSuggestions`. -/
def useBuiltInSorting : Suggestion :=
  { suggestion := "Use built-in sorting"
    impact := "Leverage optimized language implementations"
    implementation := "Use language-specific sort methods"
    tradeoff := "Less control over algorithm" }

/-- The entries of a list of pairs whose mark is set, in the order of the list. -/
def keptEntries (marked : List (Bool × Suggestion)) : List Suggestion :=
  (marked.filter (fun entry => entry.1)).map (fun entry => entry.2)

/-- The closed set of the classification labels. -/
def classificationLabels : List String :=
  ["Sorting Algorithm", "Binary Search Algorithm", "Search Algorithm",
   "Dynamic Programming Algorithm", "Tree Traversal Algorithm", "Graph Algorithm",
   "Recursive Algorithm", "Nested Loop Algorithm", "General Algorithm"]

/-- The time labels as the data model of the specification spells them. -/
def statedTimeLabels : List String :=
  ["O(1)", "O(log n)", "O(n)", "O(n log n)", "O(n²)", "O(2ⁿ)", "O(V+E)"]

/-- The time labels with the tree/graph label spelled as the code spells it. -/
def timeLabels : List String :=
  ["O(1)", "O(log n)", "O(n)", "O(n log n)", "O(n²)", "O(2ⁿ)", "O(V + E)"]

/-- The efficiency rating as a function of the time label, the classification
and whether there is more than one loop construct. -/
def efficiencyOf (time classification : String) (nestedLoops : Bool) : String :=
  if time = "O(log n)" then "Excellent"
  else if time = "O(2ⁿ)" then "Poor"
  else if time = "O(n²)" then
    (if classification = "Sorting Algorithm" then "Poor"
     else if nestedLoops then "Fair" else "Good")
  else "Good"

/-- The sentence on the iteration count that ends the detailed time analysis. -/
def iterationSentence (nestedLoopCount : Nat) : String :=
  "The algorithm processes the input data through " ++ toString (max nestedLoopCount 1) ++
    (if nestedLoopCount = 1 then " iteration" else " iterations") ++ "."

/-- Two texts that differ at most in the case of their ASCII letters: they have
the same characters once every ASCII capital is replaced by its small letter. -/
def sameLetters (s t : List Char) : Prop :=
  s.map Char.toLower = t.map Char.toLower

instance (s t : List Char) : Decidable (sameLetters s t) := by
  unfold sameLetters; infer_instance

/-- The table does not look at the case of the ASCII letters around the
character it maps. The case data of Unicode has this property: its one context
rule, for the final sigma, asks whether the neighbours are cased letters, not
which case they have. -/
def UnicodeLower.caseBlind (u : UnicodeLower) : Prop :=
  ∀ (before before' : List Char) (c : Char) (after after' : List Char),
    sameLetters before before' → sameLetters after after' →
      u before c after = u before' c after'

/-- The override rules of the complexity inference in their fixed order (binary
search, sort, nested loops, recursion, dynamic programming, tree or graph), each
with the estimate it gives. -/
def overrideRules (u : UnicodeLower) (code : String) : List (Bool × Estimate) :=
  [(hasBinarySearch u code, ⟨"O(log n)", "O(1)", "Excellent"⟩),
   (hasSorting u code,
     if includes (toLowerCase u code) "bubble" then ⟨"O(n²)", "O(1)", "Poor"⟩
     else ⟨"O(n log n)", "O(1)", "Good"⟩),
   (decide (nestedLoopCount code > 1), ⟨"O(n²)", "O(1)", "Fair"⟩),
   (hasRecursion code, ⟨"O(2ⁿ)", "O(n)", "Poor"⟩),
   (hasDynamicProgramming u code, ⟨"O(n²)", "O(n²)", "Good"⟩),
   (hasTreeTraversal u code || hasGraphAlgo u code, ⟨"O(V + E)", "O(V)", "Good"⟩)]

/-- The estimate of the first rule of the list whose condition holds, the
defaults when none holds. On the reversed list it is the estimate of the last
rule whose condition holds. -/
def firstRule (rules : List (Bool × Estimate)) : Estimate :=
  match rules.find? (fun rule => rule.1) with
  | some rule => rule.2
  | none => ⟨"O(n)", "O(1)", "Good"⟩

/-- The eight combinations of time, space and efficiency. -/
def estimateCombinations : List Estimate :=
  [⟨"O(log n)", "O(1)", "Excellent"⟩, ⟨"O(n²)", "O(1)", "Poor"⟩, ⟨"O(n log n)", "O(1)", "Good"⟩,
   ⟨"O(n²)", "O(1)", "Fair"⟩, ⟨"O(2ⁿ)", "O(n)", "Poor"⟩, ⟨"O(n²)", "O(n²)", "Good"⟩,
   ⟨"O(V + E)", "O(V)", "Good"⟩, ⟨"O(n)", "O(1)", "Good"⟩]

/-- The growth word of `visualization.complexityGraph` is `exponentially`. -/
def AnalysisReport.growsExponentially (r : AnalysisReport) : Prop :=
  r.visualization.complexityGraph = "The complexity grows exponentially with input size."

/-- The sentence of `spaceComplexity.memoryUsage` with the given word. -/
def memoryUsageSentence (word : String) : String :=
  "Memory usage is " ++ word ++ " with respect to input size."

/-- A stand-in for `JSON.parse` that accepts the text `null` alone. -/
def parseNull : String → Option Unit :=
  fun text => if text = "null" then some () else none

/-- The flag expression on the parsed value `null`: reading a property of `null`
throws a `TypeError`, here with the message of the V8 engine. -/
def nullFlag : Unit → Except JsError Bool :=
  fun _ => .error ⟨"Cannot read properties of null (reading 'overview')"⟩

/-- The code is empty or made of spaces, tabs and newlines only. -/
def blank (code : String) : Prop :=
  ∀ c ∈ code.toList, c = ' ' ∨ c = '\t' ∨ c = '\n'

instance (code : String) : Decidable (blank code) := by
  unfold blank; infer_instance

/-- The keywords of the loop pattern. -/
def loopKeywords : List String :=
  ["for", "while", "forEach"]

/-- The text `t` starts with the keyword `kw` followed, after optional white
space, by an opening parenthesis. -/
def followedByParen (kw : String) (t : List Char) : Bool :=
  kw.toList.isPrefixOf t &&
    ((t.drop kw.toList.length).dropWhile isWhiteSpace).head? == some '('

/-- No occurrence of a loop keyword in the code is followed, after optional
white space, by an opening parenthesis. -/
def noLoopHeader (code : String) : Prop :=
  ∀ t, t <:+ code.toList → ∀ kw ∈ loopKeywords, followedByParen kw t = false

/-- A nested loop written in Python, without parenthesised headers. -/
def pythonSample : String :=
  "for i in range(n):\n    for j in range(n):\n        total += 1"

/-- Every character of the text is an ASCII character. -/
def asciiText (s : String) : Prop :=
  ∀ c ∈ s.toList, c.toNat < 128

instance (s : String) : Decidable (asciiText s) := by
  unfold asciiText; infer_instance

/-! ## Lemmas on the built-ins -/

theorem includesList_iff (pat s : List Char) : includesList pat s = true ↔ pat <:+: s := by
  induction s with
  | nil => simp [includesList, List.isEmpty_iff]
  | cons c rest ih =>
    simp only [includesList, Bool.or_eq_true, ih, List.infix_cons_iff,
      List.isPrefixOf_iff_prefix]

theorem includes_iff (s pat : String) : includes s pat = true ↔ occurs pat s :=
  includesList_iff pat.toList s.toList

theorem includes_eq_false_iff (s pat : String) : includes s pat = false ↔ ¬ occurs pat s := by
  rw [← includes_iff, Bool.not_eq_true]

theorem lowerFrom_cons (u : UnicodeLower) (before : List Char) (c : Char) (rest : List Char) :
    lowerFrom u before (c :: rest) =
      lowerChar u before c rest ++ lowerFrom u (before ++ [c]) rest := rfl

theorem lowerChar_stable (u : UnicodeLower) (before after : List Char) (c : Char)
    (h : stableChar c) : lowerChar u before c after = [c] := by
  simp [lowerChar, h.1, h.2]

theorem lowerFrom_stable_append (u : UnicodeLower) (pat : List Char)
    (h : ∀ c ∈ pat, stableChar c) (before rest : List Char) :
    lowerFrom u before (pat ++ rest) = pat ++ lowerFrom u (before ++ pat) rest := by
  induction pat generalizing before with
  | nil => simp
  | cons c pat ih =>
    have hc : stableChar c := h c (List.mem_cons_self c pat)
    have ht : ∀ d ∈ pat, stableChar d := fun d hd => h d (List.mem_cons_of_mem c hd)
    simp [lowerFrom, lowerChar_stable u _ _ c hc, ih ht]

theorem lowerFrom_infix (u : UnicodeLower) (pat : List Char) (h : ∀ c ∈ pat, stableChar c)
    (s before : List Char) (hs : pat <:+: s) : pat <:+: lowerFrom u before s := by
  obtain ⟨a, b, rfl⟩ := hs
  induction a generalizing before with
  | nil =>
    simp only [List.nil_append]
    rw [lowerFrom_stable_append u pat h]
    exact List.infix_append' [] pat _
  | cons c a ih =>
    rw [List.cons_append, List.cons_append, lowerFrom_cons]
    exact (ih (before ++ [c])).trans (List.suffix_append _ _).isInfix

/-- A word of stable characters that occurs in a text occurs in its lower-case form. -/
theorem occurs_toLowerCase (u : UnicodeLower) (w code : String)
    (h : ∀ c ∈ w.toList, stableChar c) (hw : occurs w code) : occurs w (toLowerCase u code) :=
  lowerFrom_infix u w.toList h code.toList [] hw

theorem hasRecursion_iff (code : String) : hasRecursion code = true ↔ recursionSignal code := by
  simp only [hasRecursion, recursionSignal, Bool.and_eq_true, includes_iff, and_assoc]

theorem no_vocabulary_iff (text : String) :
    (∀ w ∈ vocabulary, ¬ occurs w text) ↔
      vocabulary.all (fun w => !includes text w) = true := by
  simp only [List.all_eq_true, Bool.not_eq_true', includes_eq_false_iff]

/-! ## Lemmas on the signals and the two chains -/

theorem estimate_eq_chain (u : UnicodeLower) (code : String) :
    estimate u code = estimateChainOf "O(V + E)" u code := by
  unfold estimate estimateChainOf estimateChain
  split_ifs <;> simp_all

theorem report_shows_estimate (u : UnicodeLower) (code language : String) :
    (generateFallbackAnalysis u code language).shows (estimate u code) :=
  ⟨⟨rfl, rfl, rfl⟩, ⟨rfl, rfl⟩, rfl⟩

theorem report_algorithmType (u : UnicodeLower) (code language : String) :
    (generateFallbackAnalysis u code language).algorithmAnalysis.algorithmType =
      algorithmType u code := rfl

theorem hasBinarySearch_iff (u : UnicodeLower) (code : String) :
    hasBinarySearch u code = true ↔
      occurs "binary" (toLowerCase u code) ∧ occurs "search" (toLowerCase u code) := by
  simp only [hasBinarySearch, Bool.and_eq_true, includes_iff]

theorem hasSorting_of_bubble (u : UnicodeLower) (code : String)
    (h : occurs "bubble" (toLowerCase u code)) : hasSorting u code = true := by
  simp [hasSorting, (includes_iff _ _).2 h]

/-- When no word of the vocabulary occurs in the lower-case text, none of the
six vocabulary signals holds. -/
theorem signals_of_no_vocabulary (u : UnicodeLower) (code : String)
    (h : ∀ w ∈ vocabulary, ¬ occurs w (toLowerCase u code)) :
    hasSorting u code = false ∧ hasBinarySearch u code = false ∧ hasSearching u code = false ∧
    hasDynamicProgramming u code = false ∧ hasTreeTraversal u code = false ∧
    hasGraphAlgo u code = false := by
  have key : ∀ w ∈ vocabulary, includes (toLowerCase u code) w = false :=
    fun w hw => (includes_eq_false_iff _ _).2 (h w hw)
  simp [hasSorting, hasBinarySearch, hasSearching, hasDynamicProgramming, hasTreeTraversal,
    hasGraphAlgo, key "sort" (by decide), key "bubble" (by decide), key "quick" (by decide),
    key "merge" (by decide), key "search" (by decide), key "find" (by decide),
    key "indexof" (by decide), key "binary" (by decide), key "memo" (by decide),
    key "dp" (by decide), key "cache" (by decide), key "tree" (by decide),
    key "node" (by decide), key "traverse" (by decide), key "graph" (by decide),
    key "bfs" (by decide), key "dfs" (by decide)]

/-! ## Classification and complexity inference -/

/-- C1: for every code, the `algorithmType` of the report is the label of the
first signal that holds in the order sort, binary search, search, dynamic
programming, tree, graph, recursion, more than one loop construct, and
`General Algorithm` when none holds. -/
theorem classification_first_match (u : UnicodeLower) (code language : String) :
    (generateFallbackAnalysis u code language).algorithmAnalysis.algorithmType =
      firstMatch (classificationRules u code) "General Algorithm" := by
  rw [report_algorithmType]
  unfold algorithmType firstMatch classificationRules
  split_ifs <;> simp [List.find?, *]

/-- C2, as stated: with the tree/graph time label spelled `O(V+E)` the chain
does not give the report of the code `tree`, whose label is `O(V + E)`. -/
theorem estimate_chain_stated_fails :
    ¬ (generateFallbackAnalysis UnicodeLower.keep "tree" "javascript").shows
        (estimateChainOf "O(V+E)" UnicodeLower.keep "tree") := by
  decide

/-- C2, amended: for every code, the time, space and efficiency of the report
are those of the mutually exclusive chain over the raw signals (binary search,
sort with or without `bubble`, more than one loop construct, recursion, dynamic
programming, tree or graph, defaults), the tree/graph time label being spelled
`O(V + E)`. -/
theorem estimate_chain (u : UnicodeLower) (code language : String) :
    (generateFallbackAnalysis u code language).shows (estimateChainOf "O(V + E)" u code) := by
  rw [← estimate_eq_chain]
  exact report_shows_estimate u code language

/-- C3, as stated: the code `bubble binary search` contains `bubble`, yet its
report has neither time `O(n²)` nor efficiency `Poor`. -/
theorem bubble_stated_fails :
    occurs "bubble" "bubble binary search" ∧
    ¬ (generateFallbackAnalysis UnicodeLower.keep "bubble binary search" "javascript").hasTime
        "O(n²)" ∧
    (generateFallbackAnalysis UnicodeLower.keep "bubble binary search"
        "javascript").algorithmAnalysis.efficiency ≠ "Poor" :=
  ⟨(includes_iff _ _).1 (by decide), by decide, by decide⟩

/-- C3, amended: for every code whose text contains `bubble` and whose
lower-case text does not contain both `binary` and `search`, the report has time
`O(n²)` in its best, average and worst case and efficiency `Poor`. -/
theorem bubble_quadratic_poor (u : UnicodeLower) (code language : String)
    (hb : occurs "bubble" code)
    (hn : ¬ (occurs "binary" (toLowerCase u code) ∧ occurs "search" (toLowerCase u code))) :
    (generateFallbackAnalysis u code language).hasTime "O(n²)" ∧
    (generateFallbackAnalysis u code language).algorithmAnalysis.efficiency = "Poor" := by
  have hl : occurs "bubble" (toLowerCase u code) :=
    occurs_toLowerCase u "bubble" code (by decide) hb
  have hbin : hasBinarySearch u code = false := by
    rw [← Bool.not_eq_true, hasBinarySearch_iff]; exact hn
  have he : estimate u code = ⟨"O(n²)", "O(1)", "Poor"⟩ := by
    simp [estimate, hbin, hasSorting_of_bubble u code hl, (includes_iff _ _).2 hl]
  have hs := report_shows_estimate u code language
  rw [he] at hs
  exact ⟨hs.1, hs.2.2⟩

/-- The bubble sort sample of `test-complexity.js` is a witness of C3. -/
theorem bubble_quadratic_poor_sample :
    (occurs "bubble" bubbleSortSample ∧
     ¬ (occurs "binary" (toLowerCase UnicodeLower.keep bubbleSortSample) ∧
        occurs "search" (toLowerCase UnicodeLower.keep bubbleSortSample))) ∧
    (generateFallbackAnalysis UnicodeLower.keep bubbleSortSample "javascript").hasTime "O(n²)" ∧
    (generateFallbackAnalysis UnicodeLower.keep bubbleSortSample
      "javascript").algorithmAnalysis.efficiency = "Poor" :=
  have hb : occurs "bubble" bubbleSortSample := (includes_iff _ _).1 (by decide)
  have hn : ¬ (occurs "binary" (toLowerCase UnicodeLower.keep bubbleSortSample) ∧
      occurs "search" (toLowerCase UnicodeLower.keep bubbleSortSample)) :=
    fun h => (includes_eq_false_iff _ _).1 (by decide) h.1
  ⟨⟨hb, hn⟩, bubble_quadratic_poor UnicodeLower.keep bubbleSortSample "javascript" hb hn⟩

/-- C4: for every code whose lower-case text contains both `binary` and
`search`, the report has time `O(log n)` and efficiency `Excellent`, whatever
the other signals are. -/
theorem binary_search_precedence (u : UnicodeLower) (code language : String)
    (hb : occurs "binary" (toLowerCase u code)) (hs : occurs "search" (toLowerCase u code)) :
    (generateFallbackAnalysis u code language).hasTime "O(log n)" ∧
    (generateFallbackAnalysis u code language).algorithmAnalysis.efficiency = "Excellent" := by
  have hbin : hasBinarySearch u code = true := (hasBinarySearch_iff u code).2 ⟨hb, hs⟩
  have he : estimate u code = ⟨"O(log n)", "O(1)", "Excellent"⟩ := by
    simp [estimate, hbin]
  have h := report_shows_estimate u code language
  rw [he] at h
  exact ⟨h.1, h.2.2⟩

/-- A code with `binary`, `search`, `bubble` and two loop constructs is a
witness of C4. -/
theorem binary_search_precedence_witness :
    (occurs "binary" (toLowerCase UnicodeLower.keep
        "function bubbleSort() \x7b Binary Search; for (a) \x7b for (b) \x7b\x7d \x7d \x7d") ∧
     occurs "search" (toLowerCase UnicodeLower.keep
        "function bubbleSort() \x7b Binary Search; for (a) \x7b for (b) \x7b\x7d \x7d \x7d")) ∧
    (generateFallbackAnalysis UnicodeLower.keep
      "function bubbleSort() \x7b Binary Search; for (a) \x7b for (b) \x7b\x7d \x7d \x7d" "javascript").hasTime
        "O(log n)" ∧
    (generateFallbackAnalysis UnicodeLower.keep
      "function bubbleSort() \x7b Binary Search; for (a) \x7b for (b) \x7b\x7d \x7d \x7d"
      "javascript").algorithmAnalysis.efficiency = "Excellent" :=
  have hb := (includes_iff (toLowerCase UnicodeLower.keep
    "function bubbleSort() \x7b Binary Search; for (a) \x7b for (b) \x7b\x7d \x7d \x7d") "binary").1 (by decide)
  have hs := (includes_iff (toLowerCase UnicodeLower.keep
    "function bubbleSort() \x7b Binary Search; for (a) \x7b for (b) \x7b\x7d \x7d \x7d") "search").1 (by decide)
  ⟨⟨hb, hs⟩, binary_search_precedence UnicodeLower.keep _ "javascript" hb hs⟩

/-- C5: for every code whose lower-case text contains both `bubble` and `tree`,
the classification is `Sorting Algorithm`, not `Tree Traversal Algorithm`. -/
theorem sorting_outranks_tree (u : UnicodeLower) (code language : String)
    (hb : occurs "bubble" (toLowerCase u code)) (_ht : occurs "tree" (toLowerCase u code)) :
    (generateFallbackAnalysis u code language).algorithmAnalysis.algorithmType =
      "Sorting Algorithm" ∧
    (generateFallbackAnalysis u code language).algorithmAnalysis.algorithmType ≠
      "Tree Traversal Algorithm" := by
  have h : (generateFallbackAnalysis u code language).algorithmAnalysis.algorithmType =
      "Sorting Algorithm" := by
    rw [report_algorithmType]
    simp [algorithmType, hasSorting_of_bubble u code hb]
  exact ⟨h, by rw [h]; decide⟩

/-- The sample of the specification is a witness of C5. -/
theorem sorting_outranks_tree_witness :
    (occurs "bubble" (toLowerCase UnicodeLower.keep
        "function bubbleSort(tree) \x7b for(;;)\x7bfor(;;)\x7b\x7d\x7d \x7d") ∧
     occurs "tree" (toLowerCase UnicodeLower.keep
        "function bubbleSort(tree) \x7b for(;;)\x7bfor(;;)\x7b\x7d\x7d \x7d")) ∧
    (generateFallbackAnalysis UnicodeLower.keep
      "function bubbleSort(tree) \x7b for(;;)\x7bfor(;;)\x7b\x7d\x7d \x7d"
      "javascript").algorithmAnalysis.algorithmType = "Sorting Algorithm" ∧
    (generateFallbackAnalysis UnicodeLower.keep
      "function bubbleSort(tree) \x7b for(;;)\x7bfor(;;)\x7b\x7d\x7d \x7d"
      "javascript").algorithmAnalysis.algorithmType ≠ "Tree Traversal Algorithm" :=
  have hb := (includes_iff (toLowerCase UnicodeLower.keep
    "function bubbleSort(tree) \x7b for(;;)\x7bfor(;;)\x7b\x7d\x7d \x7d") "bubble").1 (by decide)
  have ht := (includes_iff (toLowerCase UnicodeLower.keep
    "function bubbleSort(tree) \x7b for(;;)\x7bfor(;;)\x7b\x7d\x7d \x7d") "tree").1 (by decide)
  ⟨⟨hb, ht⟩, sorting_outranks_tree UnicodeLower.keep _ "javascript" hb ht⟩

/-- C6: for every code with two or more loop constructs in which no word of the
vocabulary occurs and the recursion signal is false, the classification is
`Nested Loop Algorithm`, the time `O(n²)` and the efficiency `Fair`. -/
theorem nested_loop_detection (u : UnicodeLower) (code language : String)
    (hl : 2 ≤ nestedLoopCount code)
    (hv : ∀ w ∈ vocabulary, ¬ occurs w (toLowerCase u code))
    (hr : ¬ recursionSignal code) :
    (generateFallbackAnalysis u code language).algorithmAnalysis.algorithmType =
      "Nested Loop Algorithm" ∧
    (generateFallbackAnalysis u code language).hasTime "O(n²)" ∧
    (generateFallbackAnalysis u code language).algorithmAnalysis.efficiency = "Fair" := by
  obtain ⟨h1, h2, h3, h4, h5, h6⟩ := signals_of_no_vocabulary u code hv
  have h7 : hasRecursion code = false := by
    rw [← Bool.not_eq_true, hasRecursion_iff]; exact hr
  have hl' : nestedLoopCount code > 1 := hl
  have he : estimate u code = ⟨"O(n²)", "O(1)", "Fair"⟩ := by
    simp [estimate, h1, h2, hl']
  have h := report_shows_estimate u code language
  rw [he] at h
  refine ⟨?_, h.1, h.2.2⟩
  rw [report_algorithmType]
  simp [algorithmType, h1, h2, h3, h4, h5, h6, h7, hl']

/-- Two `for (...)` constructs and nothing else are a witness of C6. -/
theorem nested_loop_detection_witness :
    (2 ≤ nestedLoopCount "for (let i = 0; i < n; i++) \x7b for (let j = 0; j < n; j++) \x7b x++; \x7d \x7d" ∧
     (∀ w ∈ vocabulary, ¬ occurs w (toLowerCase UnicodeLower.keep
        "for (let i = 0; i < n; i++) \x7b for (let j = 0; j < n; j++) \x7b x++; \x7d \x7d")) ∧
     ¬ recursionSignal "for (let i = 0; i < n; i++) \x7b for (let j = 0; j < n; j++) \x7b x++; \x7d \x7d") ∧
    (generateFallbackAnalysis UnicodeLower.keep
      "for (let i = 0; i < n; i++) \x7b for (let j = 0; j < n; j++) \x7b x++; \x7d \x7d"
      "javascript").algorithmAnalysis.algorithmType = "Nested Loop Algorithm" ∧
    (generateFallbackAnalysis UnicodeLower.keep
      "for (let i = 0; i < n; i++) \x7b for (let j = 0; j < n; j++) \x7b x++; \x7d \x7d"
      "javascript").hasTime "O(n²)" ∧
    (generateFallbackAnalysis UnicodeLower.keep
      "for (let i = 0; i < n; i++) \x7b for (let j = 0; j < n; j++) \x7b x++; \x7d \x7d"
      "javascript").algorithmAnalysis.efficiency = "Fair" :=
  have hl : 2 ≤ nestedLoopCount
      "for (let i = 0; i < n; i++) \x7b for (let j = 0; j < n; j++) \x7b x++; \x7d \x7d" := by decide
  have hv := (no_vocabulary_iff (toLowerCase UnicodeLower.keep
    "for (let i = 0; i < n; i++) \x7b for (let j = 0; j < n; j++) \x7b x++; \x7d \x7d")).2 (by decide)
  have hr : ¬ recursionSignal
      "for (let i = 0; i < n; i++) \x7b for (let j = 0; j < n; j++) \x7b x++; \x7d \x7d" :=
    fun h => (includes_eq_false_iff _ _).1 (by decide) h.1
  ⟨⟨hl, hv, hr⟩, nested_loop_detection UnicodeLower.keep _ "javascript" hl hv hr⟩

/-- C7: for every code in which no word of the vocabulary occurs, the recursion
signal is false and there is at most one loop construct, the classification is
`General Algorithm`, the time `O(n)`, the space `O(1)` and the efficiency `Good`. -/
theorem no_signal_default (u : UnicodeLower) (code language : String)
    (hv : ∀ w ∈ vocabulary, ¬ occurs w (toLowerCase u code))
    (hr : ¬ recursionSignal code)
    (hl : nestedLoopCount code ≤ 1) :
    (generateFallbackAnalysis u code language).algorithmAnalysis.algorithmType =
      "General Algorithm" ∧
    (generateFallbackAnalysis u code language).hasTime "O(n)" ∧
    (generateFallbackAnalysis u code language).hasSpace "O(1)" ∧
    (generateFallbackAnalysis u code language).algorithmAnalysis.efficiency = "Good" := by
  obtain ⟨h1, h2, h3, h4, h5, h6⟩ := signals_of_no_vocabulary u code hv
  have h7 : hasRecursion code = false := by
    rw [← Bool.not_eq_true, hasRecursion_iff]; exact hr
  have hl' : ¬ nestedLoopCount code > 1 := Nat.not_lt.2 hl
  have he : estimate u code = ⟨"O(n)", "O(1)", "Good"⟩ := by
    simp [estimate, h1, h2, h4, h5, h6, h7, hl']
  have h := report_shows_estimate u code language
  rw [he] at h
  refine ⟨?_, h.1, h.2.1, h.2.2⟩
  rw [report_algorithmType]
  simp [algorithmType, h1, h2, h3, h4, h5, h6, h7, hl']

/-- The one-statement sample `let x = 1;` is a witness of C7. -/
theorem no_signal_default_witness :
    ((∀ w ∈ vocabulary, ¬ occurs w (toLowerCase UnicodeLower.keep "let x = 1;")) ∧
     ¬ recursionSignal "let x = 1;" ∧ nestedLoopCount "let x = 1;" ≤ 1) ∧
    (generateFallbackAnalysis UnicodeLower.keep "let x = 1;"
      "javascript").algorithmAnalysis.algorithmType = "General Algorithm" ∧
    (generateFallbackAnalysis UnicodeLower.keep "let x = 1;" "javascript").hasTime "O(n)" ∧
    (generateFallbackAnalysis UnicodeLower.keep "let x = 1;" "javascript").hasSpace "O(1)" ∧
    (generateFallbackAnalysis UnicodeLower.keep "let x = 1;"
      "javascript").algorithmAnalysis.efficiency = "Good" :=
  have hv := (no_vocabulary_iff (toLowerCase UnicodeLower.keep "let x = 1;")).2 (by decide)
  have hr : ¬ recursionSignal "let x = 1;" :=
    fun h => (includes_eq_false_iff _ _).1 (by decide) h.1
  have hl : nestedLoopCount "let x = 1;" ≤ 1 := by decide
  ⟨⟨hv, hr, hl⟩, no_signal_default UnicodeLower.keep "let x = 1;" "javascript" hv hr hl⟩

/-! ## Totality -/

theorem append_eq_empty_iff (a b : String) : a ++ b = "" ↔ a = "" ∧ b = "" := by
  simp [String.ext_iff]

theorem append_ne_empty_left (a b : String) (h : a ≠ "") : a ++ b ≠ "" :=
  fun e => h ((append_eq_empty_iff a b).1 e).1

theorem append_ne_empty_right (a b : String) (h : b ≠ "") : a ++ b ≠ "" :=
  fun e => h ((append_eq_empty_iff a b).1 e).2

theorem estimate_labels_ne_empty (u : UnicodeLower) (code : String) :
    (estimate u code).timeComplexity ≠ "" ∧ (estimate u code).spaceComplexity ≠ "" ∧
    (estimate u code).efficiency ≠ "" := by
  unfold estimate
  split_ifs <;> exact ⟨by decide, by decide, by decide⟩

theorem algorithmType_ne_empty (u : UnicodeLower) (code : String) : algorithmType u code ≠ "" := by
  unfold algorithmType
  split_ifs <;> decide

theorem suggestions_populated (algorithmType timeComplexity : String) (hasRecursion : Bool)
    (nestedLoopCount : Nat) :
    ∀ s ∈ generateOptimizationSuggestions algorithmType timeComplexity hasRecursion
      nestedLoopCount, s.populated := by
  unfold generateOptimizationSuggestions
  split_ifs <;> simp [Suggestion.populated]

theorem breakdown_populated (timeComplexity : String) (nestedLoopCount : Nat)
    (h : timeComplexity ≠ "") :
    ∀ e ∈ generateCodeBreakdown timeComplexity nestedLoopCount, e.populated := by
  unfold generateCodeBreakdown
  split_ifs <;> simp [BreakdownEntry.populated, append_eq_empty_iff, h]

theorem useCases_populated (algorithmType efficiency : String) :
    ∀ c ∈ generateUseCases algorithmType efficiency, c ≠ "" := by
  unfold generateUseCases
  split_ifs <;> simp

theorem limitations_populated (efficiency timeComplexity : String) :
    ∀ l ∈ generateLimitations efficiency timeComplexity, l ≠ "" := by
  unfold generateLimitations
  split_ifs <;> simp

theorem detailedTime_ne_empty (u : UnicodeLower) (code timeComplexity : String)
    (nestedLoopCount : Nat) (hasRecursion : Bool) :
    generateDetailedTimeAnalysis u code timeComplexity nestedLoopCount hasRecursion ≠ "" := by
  unfold generateDetailedTimeAnalysis
  exact append_ne_empty_right _ _ (by decide)

theorem detailedSpace_ne_empty (spaceComplexity : String)
    (hasRecursion hasDynamicProgramming : Bool) :
    generateDetailedSpaceAnalysis spaceComplexity hasRecursion hasDynamicProgramming ≠ "" := by
  unfold generateDetailedSpaceAnalysis
  split_ifs <;> exact append_ne_empty_right _ _ (by decide)

/-- C8: for every code (the non-empty ones among them) and every language,
`generateFallbackAnalysis` returns a report that is fully populated: every text
of `overview`, `timeComplexity`, `spaceComplexity`, `algorithmAnalysis`,
`codeBreakdown`, `optimizationSuggestions`, `realWorldImplications` and
`visualization` is a non-empty string. The function is total, so it returns for
every input, and no field of the report can be missing or null. -/
theorem fallback_populated (u : UnicodeLower) (code language : String) :
    (generateFallbackAnalysis u code language).populated := by
  obtain ⟨ht, hs, he⟩ := estimate_labels_ne_empty u code
  refine ⟨?_, ⟨?_, ?_, ?_, ?_, ?_, ?_⟩, ⟨?_, ?_, ?_, ?_, ?_⟩, ⟨?_, ?_, ?_, ?_, ?_⟩, ?_, ?_,
    ⟨?_, ?_, ?_, ?_⟩, ⟨?_, ?_⟩⟩
  · exact append_ne_empty_right _ _ (by decide)
  · exact append_ne_empty_right _ _ (by decide)
  · exact append_ne_empty_right _ _ (by decide)
  · exact append_ne_empty_right _ _ (by decide)
  · exact detailedTime_ne_empty _ _ _ _ _
  · intro f hf
    simp only [generateFallbackAnalysis, List.mem_cons, List.mem_singleton, List.not_mem_nil,
      or_false] at hf
    rcases hf with rfl | rfl | rfl
    · decide
    · split_ifs <;> decide
    · split_ifs <;> decide
  · simp [generateFallbackAnalysis]
  · exact append_ne_empty_right _ _ (by decide)
  · exact append_ne_empty_right _ _ (by decide)
  · exact detailedSpace_ne_empty _ _ _
  · intro f hf
    simp only [generateFallbackAnalysis, List.mem_cons, List.mem_singleton, List.not_mem_nil,
      or_false] at hf
    rcases hf with rfl | rfl | rfl
    · decide
    · split_ifs <;> decide
    · decide
  · exact append_ne_empty_right _ _ (by decide)
  · exact algorithmType_ne_empty u code
  · exact he
  · exact suggestions_populated _ _ _ _
  · simp [generateFallbackAnalysis]
  · exact append_ne_empty_right _ _ (by decide)
  · exact breakdown_populated _ _ ht
  · exact suggestions_populated _ _ _ _
  · exact append_ne_empty_right _ _ (by decide)
  · exact append_ne_empty_right _ _ (by decide)
  · exact useCases_populated _ _
  · exact limitations_populated _ _
  · exact append_ne_empty_right _ _ (by decide)
  · exact append_ne_empty_right _ _ (by decide)

/-! ## The error path of `analyzeTimeComplexity` -/

theorem transientMarker_iff (message : String) :
    transientMarker message ↔
      (includes message "503" || includes message "429" ||
        includes message "UNAVAILABLE") = true := by
  simp only [transientMarker, Bool.or_eq_true, includes_iff, or_assoc]

theorem ne_empty_of_transientMarker (message : String) (h : transientMarker message) :
    message ≠ "" := by
  rintro rfl
  revert h
  rw [transientMarker_iff]
  decide

theorem analyzeTimeComplexity_error {J : Type} (u : UnicodeLower) (error : JsError)
    (jsonParse : String → Option J) (code language : String) :
    analyzeTimeComplexity u (.error error) jsonParse code language =
      if error.message ≠ "" ∧ (includes error.message "503" || includes error.message "429" ||
          includes error.message "UNAVAILABLE") then
        .ok (.fallback (generateFallbackAnalysis u code language))
      else .error ⟨"Failed to analyze time complexity"⟩ := rfl

/-- C9: whenever the call of the AI service fails with an error whose message
contains `503`, `429` or `UNAVAILABLE`, `analyzeTimeComplexity` does not fail and
returns the report of `generateFallbackAnalysis` for the same code and language. -/
theorem transient_failure_falls_back {J : Type} (u : UnicodeLower) (error : JsError)
    (jsonParse : String → Option J) (code language : String)
    (h : transientMarker error.message) :
    analyzeTimeComplexity u (.error error) jsonParse code language =
      .ok (.fallback (generateFallbackAnalysis u code language)) := by
  have hne := ne_empty_of_transientMarker error.message h
  have hm := (transientMarker_iff error.message).1 h
  rw [analyzeTimeComplexity_error, if_pos ⟨hne, hm⟩]

/-- A rate-limit error of the AI service is a witness of C9. -/
theorem transient_failure_falls_back_witness :
    transientMarker "Gemini API Error: 429 - Resource has been exhausted" ∧
    analyzeTimeComplexity UnicodeLower.keep
      (.error ⟨"Gemini API Error: 429 - Resource has been exhausted"⟩)
      (fun _ => (none : Option Unit)) "let x = 1;" "javascript" =
      .ok (.fallback (generateFallbackAnalysis UnicodeLower.keep "let x = 1;" "javascript")) :=
  have h : transientMarker "Gemini API Error: 429 - Resource has been exhausted" :=
    (transientMarker_iff _).2 (by decide)
  ⟨h, transient_failure_falls_back UnicodeLower.keep
    ⟨"Gemini API Error: 429 - Resource has been exhausted"⟩ _ "let x = 1;" "javascript" h⟩

/-- C10, as stated: an error of the AI service whose message has no marker is
not handed to the caller as it is; the caller gets another error. -/
theorem fatal_error_not_unchanged :
    ¬ transientMarker "Gemini API Error: 500 - Internal error" ∧
    analyzeTimeComplexity UnicodeLower.keep
      (.error ⟨"Gemini API Error: 500 - Internal error"⟩)
      (fun _ => (none : Option Unit)) "let x = 1;" "javascript" ≠
      .error ⟨"Gemini API Error: 500 - Internal error"⟩ := by
  refine ⟨fun h => absurd ((transientMarker_iff _).1 h) (by decide), ?_⟩
  intro h
  rw [analyzeTimeComplexity_error, if_neg (by decide)] at h
  exact absurd (congrArg JsError.message (Except.error.inj h)) (by decide)

/-- C10, amended: whenever the call of the AI service fails with an error whose
message contains none of `503`, `429`, `UNAVAILABLE`, `analyzeTimeComplexity`
returns no fallback report and fails with a new error whose message is
`Failed to analyze time complexity`. -/
theorem fatal_failure_rethrown {J : Type} (u : UnicodeLower) (error : JsError)
    (jsonParse : String → Option J) (code language : String)
    (h : ¬ transientMarker error.message) :
    analyzeTimeComplexity u (.error error) jsonParse code language =
      .error ⟨"Failed to analyze time complexity"⟩ := by
  have hm : ¬ (includes error.message "503" || includes error.message "429" ||
      includes error.message "UNAVAILABLE") = true := fun e => h ((transientMarker_iff _).2 e)
  rw [analyzeTimeComplexity_error, if_neg (fun c => hm c.2)]

/-- An internal error of the AI service is a witness of C10 as amended. -/
theorem fatal_failure_rethrown_witness :
    ¬ transientMarker "Gemini API Error: 500 - Internal error" ∧
    analyzeTimeComplexity UnicodeLower.keep
      (.error ⟨"Gemini API Error: 500 - Internal error"⟩)
      (fun _ => (none : Option Unit)) "let x = 1;" "javascript" =
      .error ⟨"Failed to analyze time complexity"⟩ :=
  have h : ¬ transientMarker "Gemini API Error: 500 - Internal error" :=
    fun c => absurd ((transientMarker_iff _).1 c) (by decide)
  ⟨h, fatal_failure_rethrown UnicodeLower.keep ⟨"Gemini API Error: 500 - Internal error"⟩ _
    "let x = 1;" "javascript" h⟩

/-! ## When the fallback is used -/

theorem analyzeTimeComplexity_ok {J : Type} (u : UnicodeLower) (response : String)
    (jsonParse : String → Option J) (code language : String) :
    analyzeTimeComplexity u (.ok response) jsonParse code language =
      match responseValue jsonParse response with
      | some value => .ok (.parsed value)
      | none => .ok (.fallback (generateFallbackAnalysis u code language)) := by
  unfold analyzeTimeComplexity responseValue
  cases hj : jsonMatch response.toList with
  | none => simp only [hj]
  | some m => simp only [hj]

/-- Whenever `analyzeTimeComplexity` returns a fallback report, it is the report of
`generateFallbackAnalysis` for its own code and language. -/
theorem fallback_report_eq {J : Type} (u : UnicodeLower) (apiOutcome : Except JsError String)
    (jsonParse : String → Option J) (code language : String) (r : AnalysisReport)
    (h : analyzeTimeComplexity u apiOutcome jsonParse code language = .ok (.fallback r)) :
    r = generateFallbackAnalysis u code language := by
  cases apiOutcome with
  | ok response =>
    rw [analyzeTimeComplexity_ok] at h
    cases hv : responseValue jsonParse response with
    | none => rw [hv] at h; simp only [] at h; injection h with h; injection h with h; exact h.symm
    | some value => rw [hv] at h; simp only [] at h; injection h with h; cases h
  | error error =>
    rw [analyzeTimeComplexity_error] at h
    split_ifs at h
    injection h with h; injection h with h; exact h.symm

/-- C11, as stated: the AI call succeeds and returns a text, the text is not
JSON, and the result is the report of `generateFallbackAnalysis`. -/
theorem fallback_after_success :
    analyzeTimeComplexity UnicodeLower.keep (.ok "I could not analyze this code.") parseNothing
      "let x = 1;" "javascript" =
      .ok (.fallback (generateFallbackAnalysis UnicodeLower.keep "let x = 1;" "javascript")) := by
  rw [analyzeTimeComplexity_ok]
  rfl

/-- C11, amended: `analyzeTimeComplexity` returns a fallback report exactly when
the AI call raised an error whose message has a transient-failure marker, or
the AI call succeeded and the text it returned could not be parsed; in every
run in which the AI call succeeds and the text parses, the result is the parsed
value and no fallback report. -/
theorem fallback_only_transient_or_unparsed {J : Type} (u : UnicodeLower)
    (apiOutcome : Except JsError String) (jsonParse : String → Option J)
    (code language : String) :
    ((∃ r, analyzeTimeComplexity u apiOutcome jsonParse code language = .ok (.fallback r)) ↔
      (∃ error, apiOutcome = .error error ∧ transientMarker error.message) ∨
      (∃ response, apiOutcome = .ok response ∧ responseValue jsonParse response = none)) ∧
    (∀ response value, apiOutcome = .ok response → responseValue jsonParse response = some value →
      analyzeTimeComplexity u apiOutcome jsonParse code language = .ok (.parsed value)) := by
  constructor
  · cases apiOutcome with
    | ok response =>
      rw [analyzeTimeComplexity_ok]
      cases hv : responseValue jsonParse response with
      | none =>
        simp only []
        exact ⟨fun _ => Or.inr ⟨response, rfl, hv⟩, fun _ => ⟨_, rfl⟩⟩
      | some value =>
        simp only []
        constructor
        · rintro ⟨r, h⟩; injection h with h; cases h
        · rintro (⟨error, h, _⟩ | ⟨response', h, h'⟩)
          · cases h
          · injection h with h; subst h; rw [hv] at h'; cases h'
    | error error =>
      by_cases hm : transientMarker error.message
      · rw [analyzeTimeComplexity_error, if_pos ⟨ne_empty_of_transientMarker _ hm,
          (transientMarker_iff _).1 hm⟩]
        exact ⟨fun _ => Or.inl ⟨error, rfl, hm⟩, fun _ => ⟨_, rfl⟩⟩
      · rw [analyzeTimeComplexity_error,
          if_neg (fun c => hm ((transientMarker_iff _).2 c.2))]
        constructor
        · rintro ⟨r, h⟩; cases h
        · rintro (⟨error', h, h'⟩ | ⟨response, h, _⟩)
          · injection h with h; subst h; exact absurd h' hm
          · cases h
  · intro response value ho hv
    subst ho
    rw [analyzeTimeComplexity_ok, hv]

/-- An answer that parses is a witness of C11 as amended: the result is the
parsed value. -/
theorem fallback_only_transient_or_unparsed_witness :
    responseValue parseAsText "\x7b\x7d" = some "\x7b\x7d" ∧
    analyzeTimeComplexity UnicodeLower.keep (.ok "\x7b\x7d") parseAsText "let x = 1;"
      "javascript" = .ok (.parsed "\x7b\x7d") :=
  have h : responseValue parseAsText "\x7b\x7d" = some "\x7b\x7d" := by decide
  ⟨h, (fallback_only_transient_or_unparsed UnicodeLower.keep (.ok "\x7b\x7d") parseAsText
    "let x = 1;" "javascript").2 "\x7b\x7d" "\x7b\x7d" rfl h⟩

/-! ## The fallback flag -/

theorem overview_appears_to_be (u : UnicodeLower) (code language : String) :
    occurs "appears to be" (generateFallbackAnalysis u code language).overview := by
  refine ⟨"This ".toList, " a ".toList ++ (toLowerCase u (algorithmType u code) ++ " written in " ++
    language ++ ". The code contains " ++ toString (codeLines code).length ++
    " lines of logic with " ++ toString (nestedLoopCount code) ++ " loop structures.").toList, ?_⟩
  simp only [generateFallbackAnalysis, String.toList, String.data_append, List.append_assoc]
  rfl

theorem isFallback_fallback {J : Type} (u : UnicodeLower) (flagOf : J → Except JsError Bool)
    (code language : String) :
    isFallback flagOf (.fallback (generateFallbackAnalysis u code language)) = .ok true := by
  have h1 : (generateFallbackAnalysis u code language).overview ≠ "" :=
    append_ne_empty_right _ _ (by decide)
  have h2 := (includes_iff _ _).2 (overview_appears_to_be u code language)
  simp [isFallback, h1, h2]

/-- C12: for every code and language, the overview of the report of
`generateFallbackAnalysis` contains the phrase `appears to be`, and in every run
of `analyzeComplexityHandler` in which `analyzeTimeComplexity` returns a fallback
report the response carries `isFallback = true`. -/
theorem fallback_flagged {J : Type} (u : UnicodeLower) (code language : String) :
    occurs "appears to be" (generateFallbackAnalysis u code language).overview ∧
    ∀ (apiOutcome : Except JsError String) (jsonParse : String → Option J)
      (flagOf : J → Except JsError Bool) (bodyLanguage : Option String) (r : AnalysisReport),
      code ≠ "" →
      analyzeTimeComplexity u apiOutcome jsonParse code (bodyLanguage.getD "javascript") =
        .ok (.fallback r) →
      (analyzeComplexityHandler u apiOutcome jsonParse flagOf (some code) bodyLanguage).isFallback =
        some true := by
  refine ⟨overview_appears_to_be u code language, ?_⟩
  intro apiOutcome jsonParse flagOf bodyLanguage r hc h
  have hr := fallback_report_eq u apiOutcome jsonParse code _ r h
  simp only [analyzeComplexityHandler, if_neg hc, h, hr, isFallback_fallback]

/-- A run of the handler in which the AI service is overloaded is a witness of
C12: the response is flagged. -/
theorem fallback_flagged_witness :
    ("let x = 1;" ≠ "" ∧
     analyzeTimeComplexity UnicodeLower.keep
       (.error ⟨"Gemini API Error: 503 - The model is overloaded."⟩) parseNothing "let x = 1;"
       ((none : Option String).getD "javascript") =
       .ok (.fallback (generateFallbackAnalysis UnicodeLower.keep "let x = 1;" "javascript"))) ∧
    (analyzeComplexityHandler UnicodeLower.keep
      (.error ⟨"Gemini API Error: 503 - The model is overloaded."⟩) parseNothing
      (fun _ => .ok false) (some "let x = 1;") none).isFallback = some true :=
  have hc : "let x = 1;" ≠ "" := by decide
  have h : analyzeTimeComplexity UnicodeLower.keep
      (.error ⟨"Gemini API Error: 503 - The model is overloaded."⟩) parseNothing "let x = 1;"
      ((none : Option String).getD "javascript") =
      .ok (.fallback (generateFallbackAnalysis UnicodeLower.keep "let x = 1;" "javascript")) := by
    rw [analyzeTimeComplexity_error, if_pos (by decide)]
    rfl
  ⟨⟨hc, h⟩, (fallback_flagged UnicodeLower.keep "let x = 1;" "javascript").2
    (.error ⟨"Gemini API Error: 503 - The model is overloaded."⟩) parseNothing
    (fun _ => .ok false) none _ hc h⟩

/-! ## The generators -/

/-- C13: for all arguments, `generateOptimizationSuggestions` returns at most
three entries, and the memoization suggestion is among them only if
`hasRecursion` is true. -/
theorem suggestions_bounds (algorithmType timeComplexity : String) (hasRecursion : Bool)
    (nestedLoopCount : Nat) :
    (generateOptimizationSuggestions algorithmType timeComplexity hasRecursion
      nestedLoopCount).length ≤ 3 ∧
    ((∃ s ∈ generateOptimizationSuggestions algorithmType timeComplexity hasRecursion
        nestedLoopCount, s.suggestion = "Implement memoization") → hasRecursion = true) := by
  unfold generateOptimizationSuggestions
  split_ifs <;> simp_all

/-- C15: for all arguments, also outside the closed label sets,
`generateUseCases` returns at least two entries and `generateLimitations` returns
at least two entries. -/
theorem useCases_limitations_floor (algorithmType efficiency timeComplexity : String) :
    2 ≤ (generateUseCases algorithmType efficiency).length ∧
    2 ≤ (generateLimitations efficiency timeComplexity).length := by
  constructor
  · unfold generateUseCases
    split_ifs <;> simp
  · unfold generateLimitations
    split_ifs <;> simp

/-! ## The suggestion list -/

theorem includes_sorting_of_label (algorithmType : String)
    (h : algorithmType ∈ classificationLabels) :
    includes algorithmType "Sorting" = decide (algorithmType = "Sorting Algorithm") := by
  simp only [classificationLabels, List.mem_cons, List.mem_singleton, List.not_mem_nil,
    or_false] at h
  rcases h with rfl | rfl | rfl | rfl | rfl | rfl | rfl | rfl | rfl <;> decide

/-- C14: for every classification label of the closed set, every time label,
every `hasRecursion` and every `nestedLoopCount`, `generateOptimizationSuggestions`
returns the entries of the list nested-loop suggestion, memoization suggestion,
built-in sort suggestion, in that order, that keeps the first iff the time is
`O(n²)` and `nestedLoopCount > 1`, the second iff `hasRecursion`, and the third
iff the classification is `Sorting Algorithm`. -/
theorem suggestions_sublist (algorithmType timeComplexity : String) (hasRecursion : Bool)
    (nestedLoopCount : Nat) (h : algorithmType ∈ classificationLabels) :
    generateOptimizationSuggestions algorithmType timeComplexity hasRecursion nestedLoopCount =
      keptEntries [(decide (timeComplexity = "O(n²)" ∧ nestedLoopCount > 1), reduceNestedLoops),
        (hasRecursion, implementMemoization),
        (decide (algorithmType = "Sorting Algorithm"), useBuiltInSorting)] := by
  unfold generateOptimizationSuggestions keptEntries
  rw [includes_sorting_of_label algorithmType h]
  by_cases h1 : timeComplexity = "O(n²)" ∧ nestedLoopCount > 1 <;>
    by_cases h3 : algorithmType = "Sorting Algorithm" <;>
    cases hasRecursion <;>
    simp [h1, h3, reduceNestedLoops, implementMemoization, useBuiltInSorting, List.filter]

/-- A bubble sort with two loops and the recursion signal is a witness of C14:
all three suggestions are kept. -/
theorem suggestions_sublist_witness :
    "Sorting Algorithm" ∈ classificationLabels ∧
    generateOptimizationSuggestions "Sorting Algorithm" "O(n²)" true 2 =
      keptEntries [(decide (("O(n²)" : String) = "O(n²)" ∧ 2 > 1), reduceNestedLoops),
        (true, implementMemoization),
        (decide (("Sorting Algorithm" : String) = "Sorting Algorithm"), useBuiltInSorting)] :=
  ⟨by decide, suggestions_sublist "Sorting Algorithm" "O(n²)" true 2 (by decide)⟩

/-! ## Labels -/

theorem estimate_time_mem (u : UnicodeLower) (code : String) :
    (estimate u code).timeComplexity ∈ timeLabels := by
  unfold estimate
  split_ifs <;> decide

/-- C16, as stated: the time label of the report of the code `tree` is none of
the labels as the data model spells them. -/
theorem time_label_stated_fails :
    ¬ ∃ t ∈ statedTimeLabels,
      (generateFallbackAnalysis UnicodeLower.keep "tree" "javascript").hasTime t := by
  decide

/-- C16, amended: for every code, the time label in the best, average and worst
case of the report is one of `O(1)`, `O(log n)`, `O(n)`, `O(n log n)`, `O(n²)`,
`O(2ⁿ)`, `O(V + E)`, the last one spelled with spaces. -/
theorem time_label_mem (u : UnicodeLower) (code language : String) :
    ∃ t ∈ timeLabels, (generateFallbackAnalysis u code language).hasTime t :=
  ⟨(estimate u code).timeComplexity, estimate_time_mem u code,
    (report_shows_estimate u code language).1⟩

/-! ## The language tag -/

/-- C18: for every code and any two languages, the two reports agree on every
field other than `overview`. -/
theorem language_only_in_overview (u : UnicodeLower) (code l1 l2 : String) :
    (generateFallbackAnalysis u code l1).timeComplexity =
      (generateFallbackAnalysis u code l2).timeComplexity ∧
    (generateFallbackAnalysis u code l1).spaceComplexity =
      (generateFallbackAnalysis u code l2).spaceComplexity ∧
    (generateFallbackAnalysis u code l1).algorithmAnalysis =
      (generateFallbackAnalysis u code l2).algorithmAnalysis ∧
    (generateFallbackAnalysis u code l1).codeBreakdown =
      (generateFallbackAnalysis u code l2).codeBreakdown ∧
    (generateFallbackAnalysis u code l1).optimizationSuggestions =
      (generateFallbackAnalysis u code l2).optimizationSuggestions ∧
    (generateFallbackAnalysis u code l1).realWorldImplications =
      (generateFallbackAnalysis u code l2).realWorldImplications ∧
    (generateFallbackAnalysis u code l1).visualization =
      (generateFallbackAnalysis u code l2).visualization :=
  ⟨rfl, rfl, rfl, rfl, rfl, rfl, rfl⟩

/-! ## The iteration sentence -/

theorem iterationSentence_eq (n : Nat) :
    "The algorithm processes the input data through " ++
      toString (if n = 0 then 1 else n) ++ " iteration" ++
      (if n ≠ 1 then "s" else "") ++ "." = iterationSentence n := by
  unfold iterationSentence
  have hmax : (if n = 0 then 1 else n) = max n 1 := by
    split_ifs with h
    · subst h; rfl
    · omega
  rw [hmax]
  by_cases h1 : n = 1
  · simp [h1, String.append_assoc]
  · simp only [h1, if_false, ne_eq, not_false_eq_true, if_true, String.append_assoc]
    rfl

theorem suffix_of_append (a b c d e f : String) :
    (b ++ c ++ d ++ e ++ f).toList <:+ (a ++ b ++ c ++ d ++ e ++ f).toList := by
  simp only [String.toList, String.data_append, List.append_assoc]
  exact List.suffix_append _ _

/-- C20: for every code, time label, `nestedLoopCount` and `hasRecursion`, the
text of `generateDetailedTimeAnalysis` ends with the sentence on the iteration
count, whose number is the maximum of `nestedLoopCount` and 1 and whose noun is
`iteration` exactly when `nestedLoopCount = 1` and `iterations` otherwise (for
`nestedLoopCount = 0` the sentence reads `1 iterations`). -/
theorem detailed_time_ends (u : UnicodeLower) (code timeComplexity : String)
    (nestedLoopCount : Nat) (hasRecursion : Bool) :
    (iterationSentence nestedLoopCount).toList <:+
      (generateDetailedTimeAnalysis u code timeComplexity nestedLoopCount hasRecursion).toList ∧
    iterationSentence 0 = "The algorithm processes the input data through 1 iterations." ∧
    iterationSentence 1 = "The algorithm processes the input data through 1 iteration." := by
  refine ⟨?_, by decide, by decide⟩
  rw [← iterationSentence_eq]
  unfold generateDetailedTimeAnalysis
  exact suffix_of_append _ _ _ _ _ _

/-! ## The efficiency rating -/

theorem algorithmType_sorting_iff (u : UnicodeLower) (code : String) :
    algorithmType u code = "Sorting Algorithm" ↔ hasSorting u code = true := by
  unfold algorithmType
  by_cases hs : hasSorting u code = true
  · simp [hs]
  · rw [Bool.not_eq_true] at hs
    rw [hs]
    simp only [Bool.false_eq_true, if_false, iff_false]
    split_ifs <;> decide

theorem efficiency_eq_efficiencyOf (u : UnicodeLower) (code : String) :
    (estimate u code).efficiency =
      efficiencyOf (estimate u code).timeComplexity (algorithmType u code)
        (decide (nestedLoopCount code > 1)) := by
  have hsort := algorithmType_sorting_iff u code
  unfold estimate
  split_ifs <;> simp_all [efficiencyOf]
  rw [if_neg (by omega)]

theorem append_right_cancel (a b s : String) (h : a ++ s = b ++ s) : a = b := by
  have := congrArg String.data h
  simp only [String.data_append] at this
  exact String.ext (List.append_cancel_right this)

theorem time_of_hasTime (u : UnicodeLower) (code language t : String)
    (h : (generateFallbackAnalysis u code language).hasTime t) :
    (estimate u code).timeComplexity = t :=
  append_right_cancel _ _ " - Best case scenario" h.1

/-- C17, as stated: two codes with the same time label and the same
classification whose efficiency ratings differ. -/
theorem efficiency_not_determined :
    (generateFallbackAnalysis UnicodeLower.keep
      "const memo = new Map(); for (a) \x7b\x7d for (b) \x7b\x7d" "javascript").hasTime "O(n²)" ∧
    (generateFallbackAnalysis UnicodeLower.keep
      "const memo = new Map();" "javascript").hasTime "O(n²)" ∧
    (generateFallbackAnalysis UnicodeLower.keep
      "const memo = new Map(); for (a) \x7b\x7d for (b) \x7b\x7d"
      "javascript").algorithmAnalysis.algorithmType =
    (generateFallbackAnalysis UnicodeLower.keep
      "const memo = new Map();" "javascript").algorithmAnalysis.algorithmType ∧
    (generateFallbackAnalysis UnicodeLower.keep
      "const memo = new Map(); for (a) \x7b\x7d for (b) \x7b\x7d"
      "javascript").algorithmAnalysis.efficiency ≠
    (generateFallbackAnalysis UnicodeLower.keep
      "const memo = new Map();" "javascript").algorithmAnalysis.efficiency := by
  decide

/-- C17, amended: the efficiency rating is a function of the time label, the
classification and whether there is more than one loop construct: two codes
with the same time label and the same `algorithmType` that agree on
`nestedLoopCount > 1` have the same efficiency rating. -/
theorem efficiency_determined (u : UnicodeLower) (code1 language1 code2 language2 t : String)
    (h1 : (generateFallbackAnalysis u code1 language1).hasTime t)
    (h2 : (generateFallbackAnalysis u code2 language2).hasTime t)
    (ha : (generateFallbackAnalysis u code1 language1).algorithmAnalysis.algorithmType =
      (generateFallbackAnalysis u code2 language2).algorithmAnalysis.algorithmType)
    (hn : nestedLoopCount code1 > 1 ↔ nestedLoopCount code2 > 1) :
    (generateFallbackAnalysis u code1 language1).algorithmAnalysis.efficiency =
      (generateFallbackAnalysis u code2 language2).algorithmAnalysis.efficiency := by
  show (estimate u code1).efficiency = (estimate u code2).efficiency
  rw [efficiency_eq_efficiencyOf u code1, efficiency_eq_efficiencyOf u code2,
    time_of_hasTime u code1 language1 t h1, time_of_hasTime u code2 language2 t h2]
  have ha' : algorithmType u code1 = algorithmType u code2 := ha
  rw [ha', decide_eq_decide.2 hn]

/-- Two codes with a memo table and two loop constructs each are a witness of
C17 as amended. -/
theorem efficiency_determined_witness :
    ((generateFallbackAnalysis UnicodeLower.keep
        "const memo = new Map(); for (a) \x7b\x7d for (b) \x7b\x7d" "javascript").hasTime "O(n²)" ∧
     (generateFallbackAnalysis UnicodeLower.keep
        "memo; for (i of xs) \x7b while (i) \x7b\x7d \x7d" "python").hasTime "O(n²)" ∧
     (generateFallbackAnalysis UnicodeLower.keep
        "const memo = new Map(); for (a) \x7b\x7d for (b) \x7b\x7d"
        "javascript").algorithmAnalysis.algorithmType =
      (generateFallbackAnalysis UnicodeLower.keep
        "memo; for (i of xs) \x7b while (i) \x7b\x7d \x7d"
        "python").algorithmAnalysis.algorithmType ∧
     (nestedLoopCount "const memo = new Map(); for (a) \x7b\x7d for (b) \x7b\x7d" > 1 ↔
      nestedLoopCount "memo; for (i of xs) \x7b while (i) \x7b\x7d \x7d" > 1)) ∧
    (generateFallbackAnalysis UnicodeLower.keep
      "const memo = new Map(); for (a) \x7b\x7d for (b) \x7b\x7d"
      "javascript").algorithmAnalysis.efficiency =
    (generateFallbackAnalysis UnicodeLower.keep
      "memo; for (i of xs) \x7b while (i) \x7b\x7d \x7d" "python").algorithmAnalysis.efficiency :=
  have h1 : (generateFallbackAnalysis UnicodeLower.keep
      "const memo = new Map(); for (a) \x7b\x7d for (b) \x7b\x7d" "javascript").hasTime "O(n²)" :=
    by decide
  have h2 : (generateFallbackAnalysis UnicodeLower.keep
      "memo; for (i of xs) \x7b while (i) \x7b\x7d \x7d" "python").hasTime "O(n²)" := by decide
  have ha : (generateFallbackAnalysis UnicodeLower.keep
      "const memo = new Map(); for (a) \x7b\x7d for (b) \x7b\x7d"
      "javascript").algorithmAnalysis.algorithmType =
      (generateFallbackAnalysis UnicodeLower.keep
        "memo; for (i of xs) \x7b while (i) \x7b\x7d \x7d"
        "python").algorithmAnalysis.algorithmType := by decide
  have hn : nestedLoopCount "const memo = new Map(); for (a) \x7b\x7d for (b) \x7b\x7d" > 1 ↔
      nestedLoopCount "memo; for (i of xs) \x7b while (i) \x7b\x7d \x7d" > 1 := by decide
  ⟨⟨h1, h2, ha, hn⟩, efficiency_determined UnicodeLower.keep _ "javascript" _ "python" "O(n²)"
    h1 h2 ha hn⟩

/-! ## Case of the ASCII letters -/

theorem toNat_ofNat_of_lt (n : Nat) (h : n < 0xd800) : (Char.ofNat n).toNat = n := by
  have hv : n.isValidChar := Or.inl h
  unfold Char.ofNat
  rw [dif_pos hv]
  rfl

theorem toLower_of_not_ascii (c : Char) (h : ¬ c.toNat < 128) : c.toLower = c := by
  unfold Char.toLower
  simp only []
  rw [if_neg]
  omega

theorem toLower_ascii (c : Char) (h : c.toNat < 128) : c.toLower.toNat < 128 := by
  unfold Char.toLower
  simp only []
  split_ifs with hc
  · rw [toNat_ofNat_of_lt _ (by omega)]
    omega
  · exact h

theorem ascii_of_toLower_eq (c d : Char) (h : c.toLower = d.toLower) (hc : c.toNat < 128) :
    d.toNat < 128 := by
  by_contra hd
  have := toLower_ascii c hc
  rw [h, toLower_of_not_ascii d hd] at this
  exact hd this

theorem sameLetters_nil_left (t : List Char) (h : sameLetters [] t) : t = [] := by
  unfold sameLetters at h
  simpa using h.symm

theorem sameLetters_cons_left (c : Char) (s t : List Char) (h : sameLetters (c :: s) t) :
    ∃ d t', t = d :: t' ∧ c.toLower = d.toLower ∧ sameLetters s t' := by
  unfold sameLetters at h
  cases t with
  | nil => simp at h
  | cons d t' =>
    simp only [List.map_cons, List.cons.injEq] at h
    exact ⟨d, t', rfl, h.1, h.2⟩

theorem sameLetters_append (s s' t t' : List Char) (hs : sameLetters s s')
    (ht : sameLetters t t') : sameLetters (s ++ t) (s' ++ t') := by
  unfold sameLetters at *
  simp [hs, ht]

theorem lowerFrom_sameLetters (u : UnicodeLower) (hu : u.caseBlind) (s : List Char) :
    ∀ (s' before before' : List Char), sameLetters s s' → sameLetters before before' →
      lowerFrom u before s = lowerFrom u before' s' := by
  induction s with
  | nil =>
    intro s' before before' hs _
    rw [sameLetters_nil_left s' hs]
    rfl
  | cons c rest ih =>
    intro s' before before' hs hb
    obtain ⟨d, rest', rfl, hcd, hr⟩ := sameLetters_cons_left c rest s' hs
    rw [lowerFrom_cons, lowerFrom_cons]
    have hstep : sameLetters (before ++ [c]) (before' ++ [d]) :=
      sameLetters_append _ _ _ _ hb (by unfold sameLetters; simp [hcd])
    rw [ih rest' (before ++ [c]) (before' ++ [d]) hr hstep]
    congr 1
    unfold lowerChar
    by_cases hc : c.toNat < 128
    · rw [if_pos hc, if_pos (ascii_of_toLower_eq c d hcd hc), hcd]
    · have hd : ¬ d.toNat < 128 := fun h => hc (ascii_of_toLower_eq d c hcd.symm h)
      rw [if_neg hc, if_neg hd]
      have hcd' : c = d := by
        rw [← toLower_of_not_ascii c hc, ← toLower_of_not_ascii d hd]; exact hcd
      subst hcd'
      exact hu before before' c rest rest' hb hr

theorem toLowerCase_sameLetters (u : UnicodeLower) (hu : u.caseBlind) (code code' : String)
    (h : sameLetters code.toList code'.toList) : toLowerCase u code = toLowerCase u code' := by
  unfold toLowerCase
  rw [lowerFrom_sameLetters u hu code.toList code'.toList [] [] h rfl]

theorem caseBlind_keep : UnicodeLower.keep.caseBlind := fun _ _ _ _ _ _ _ => rfl

/-- C21: for every code and every code that differs from it only in the case of
ASCII letters, the six vocabulary signals (sort, search, binary search, dynamic
programming, tree, graph) are the same, for every case table that does not look
at the case of the ASCII letters around a character, as the one of Unicode. -/
theorem signals_case_insensitive (u : UnicodeLower) (code code' : String)
    (hu : u.caseBlind) (h : sameLetters code.toList code'.toList) :
    hasSorting u code = hasSorting u code' ∧ hasSearching u code = hasSearching u code' ∧
    hasBinarySearch u code = hasBinarySearch u code' ∧
    hasDynamicProgramming u code = hasDynamicProgramming u code' ∧
    hasTreeTraversal u code = hasTreeTraversal u code' ∧
    hasGraphAlgo u code = hasGraphAlgo u code' := by
  have hl := toLowerCase_sameLetters u hu code code' h
  simp only [hasSorting, hasSearching, hasBinarySearch, hasDynamicProgramming, hasTreeTraversal,
    hasGraphAlgo, hl, and_self]

/-- The words `BUBBLE` and `Bubble` raise the sort signal like `bubble`: a
witness of C21. -/
theorem signals_case_insensitive_witness :
    (UnicodeLower.keep.caseBlind ∧ sameLetters "BUBBLE".toList "Bubble".toList) ∧
    (hasSorting UnicodeLower.keep "BUBBLE" = hasSorting UnicodeLower.keep "Bubble" ∧
     hasSearching UnicodeLower.keep "BUBBLE" = hasSearching UnicodeLower.keep "Bubble" ∧
     hasBinarySearch UnicodeLower.keep "BUBBLE" = hasBinarySearch UnicodeLower.keep "Bubble" ∧
     hasDynamicProgramming UnicodeLower.keep "BUBBLE" =
       hasDynamicProgramming UnicodeLower.keep "Bubble" ∧
     hasTreeTraversal UnicodeLower.keep "BUBBLE" = hasTreeTraversal UnicodeLower.keep "Bubble" ∧
     hasGraphAlgo UnicodeLower.keep "BUBBLE" = hasGraphAlgo UnicodeLower.keep "Bubble") ∧
    hasSorting UnicodeLower.keep "BUBBLE" = true ∧ hasSorting UnicodeLower.keep "bubble" = true :=
  have hs : sameLetters "BUBBLE".toList "Bubble".toList := by decide
  ⟨⟨caseBlind_keep, hs⟩,
    signals_case_insensitive UnicodeLower.keep "BUBBLE" "Bubble" caseBlind_keep hs,
    by decide, by decide⟩

/-! ## Texts of ASCII characters -/

theorem lowerFrom_ascii (u : UnicodeLower) (s : List Char) (h : ∀ c ∈ s, c.toNat < 128) :
    ∀ before, lowerFrom u before s = s.map Char.toLower := by
  induction s with
  | nil => intro before; rfl
  | cons c rest ih =>
    intro before
    have hc : c.toNat < 128 := h c (List.mem_cons_self c rest)
    rw [lowerFrom_cons, ih (fun d hd => h d (List.mem_cons_of_mem c hd))]
    simp [lowerChar, hc]

theorem toLowerCase_ascii (u : UnicodeLower) (s : String) (h : asciiText s) :
    toLowerCase u s = toLowerCase UnicodeLower.keep s := by
  unfold toLowerCase
  rw [lowerFrom_ascii u s.toList h, lowerFrom_ascii UnicodeLower.keep s.toList h]

theorem algorithmType_ascii (u : UnicodeLower) (code : String) (h : asciiText code) :
    algorithmType u code = algorithmType UnicodeLower.keep code := by
  simp only [algorithmType, hasSorting, hasBinarySearch, hasSearching, hasDynamicProgramming,
    hasTreeTraversal, hasGraphAlgo, toLowerCase_ascii u code h]

theorem estimate_ascii (u : UnicodeLower) (code : String) (h : asciiText code) :
    estimate u code = estimate UnicodeLower.keep code := by
  simp only [estimate, hasSorting, hasBinarySearch, hasSearching, hasDynamicProgramming,
    hasTreeTraversal, hasGraphAlgo, toLowerCase_ascii u code h]

theorem algorithmType_asciiText (u : UnicodeLower) (code : String) :
    asciiText (algorithmType u code) := by
  unfold algorithmType
  split_ifs <;> decide

theorem efficiency_asciiText (u : UnicodeLower) (code : String) :
    asciiText (estimate u code).efficiency := by
  unfold estimate
  split_ifs <;> decide

/-- On a code of ASCII characters the report is the same for every case table. -/
theorem generateFallbackAnalysis_ascii (u : UnicodeLower) (code language : String)
    (h : asciiText code) :
    generateFallbackAnalysis u code language =
      generateFallbackAnalysis UnicodeLower.keep code language := by
  have h1 := algorithmType_ascii u code h
  have h2 := estimate_ascii u code h
  have h3 := toLowerCase_ascii u code h
  have h4 := toLowerCase_ascii u _ (algorithmType_asciiText UnicodeLower.keep code)
  have h5 := toLowerCase_ascii u _ (efficiency_asciiText UnicodeLower.keep code)
  simp only [generateFallbackAnalysis, generateDetailedTimeAnalysis, hasDynamicProgramming,
    h1, h2, h3, h4, h5]

/-! ## Which rule wins -/

theorem estimate_eq_firstRule (u : UnicodeLower) (code : String) :
    estimate u code = firstRule (overrideRules u code) := by
  unfold estimate firstRule overrideRules
  split_ifs <;> simp [List.find?, *]

/-- C22, as stated: in the code `bubble binary search` the binary-search rule
and the sort rule both hold, and the report does not carry the estimate of the
later one. -/
theorem later_rule_does_not_win :
    ¬ (generateFallbackAnalysis UnicodeLower.keep "bubble binary search" "javascript").shows
        (firstRule (overrideRules UnicodeLower.keep "bubble binary search").reverse) := by
  decide

/-- C22, amended: when the conditions of several rules hold at once, the rule
that comes first in the order binary search, sort, nested loops, recursion,
dynamic programming, tree or graph gives the estimate of the report; earlier
rules win over later ones. -/
theorem earlier_rule_wins (u : UnicodeLower) (code language : String) :
    (generateFallbackAnalysis u code language).shows (firstRule (overrideRules u code)) := by
  rw [← estimate_eq_firstRule]
  exact report_shows_estimate u code language

/-! ## Classification against complexity inference -/

theorem hasTime_iff (u : UnicodeLower) (code language t : String) :
    (generateFallbackAnalysis u code language).hasTime t ↔ (estimate u code).timeComplexity = t := by
  constructor
  · exact time_of_hasTime u code language t
  · intro h
    rw [← h]
    exact (report_shows_estimate u code language).1

theorem hasSpace_iff (u : UnicodeLower) (code language t : String) :
    (generateFallbackAnalysis u code language).hasSpace t ↔
      (estimate u code).spaceComplexity = t := by
  constructor
  · intro h
    exact append_right_cancel _ _ " - Total space complexity" h.2
  · intro h
    rw [← h]
    exact (report_shows_estimate u code language).2.1

/-- C23: there is a code that is classified `Tree Traversal Algorithm` while
its time is `O(n²)`, from the nested-loop branch, and not the tree/graph
estimate `O(V + E)`: a text with `tree` and two `for (...)` constructs. -/
theorem tree_classified_quadratic :
    ∃ code : String, ∀ (u : UnicodeLower) (language : String),
      (generateFallbackAnalysis u code language).algorithmAnalysis.algorithmType =
        "Tree Traversal Algorithm" ∧
      (generateFallbackAnalysis u code language).hasTime "O(n²)" ∧
      ¬ (generateFallbackAnalysis u code language).hasTime "O(V + E)" := by
  refine ⟨"visit(tree); for (a of tree) \x7b for (b of a) \x7b\x7d \x7d", fun u language => ?_⟩
  rw [generateFallbackAnalysis_ascii u _ language (by decide)]
  have he : estimate UnicodeLower.keep
      "visit(tree); for (a of tree) \x7b for (b of a) \x7b\x7d \x7d" =
      ⟨"O(n²)", "O(1)", "Fair"⟩ := by decide
  refine ⟨?_, ?_, ?_⟩
  · rw [report_algorithmType]; decide
  · rw [hasTime_iff, he]
  · rw [hasTime_iff, he]; decide

theorem efficiency_of_sorting (u : UnicodeLower) (code : String)
    (h : hasSorting u code = true) : (estimate u code).efficiency ≠ "Fair" := by
  unfold estimate
  simp only [h, if_true]
  split_ifs <;> decide

/-- C24, as stated: no code with the sort signal and more than one loop
construct is classified `Sorting Algorithm` and given the nested-loop estimate
`O(n²)`, `Fair`. -/
theorem sort_never_nested_estimate :
    ¬ ∃ (u : UnicodeLower) (code language : String),
      hasSorting u code = true ∧ nestedLoopCount code > 1 ∧
      (generateFallbackAnalysis u code language).algorithmAnalysis.algorithmType =
        "Sorting Algorithm" ∧
      (generateFallbackAnalysis u code language).shows ⟨"O(n²)", "O(1)", "Fair"⟩ := by
  rintro ⟨u, code, language, hs, _, _, hshow⟩
  exact efficiency_of_sorting u code hs hshow.2.2

/-- C24, amended: for a code with the sort signal and more than one loop
construct and without the binary-search signal, classification and complexity
inference agree: it is classified `Sorting Algorithm` and its estimate is the
one of the sort rule, `O(n²)`, `Poor` with `bubble` in the lower-case text and
`O(n log n)`, `Good` without, not the nested-loop one. -/
theorem sort_with_loops_agree (u : UnicodeLower) (code language : String)
    (hs : hasSorting u code = true) (hb : hasBinarySearch u code = false)
    (_hl : nestedLoopCount code > 1) :
    (generateFallbackAnalysis u code language).algorithmAnalysis.algorithmType =
      "Sorting Algorithm" ∧
    (generateFallbackAnalysis u code language).shows
      (if includes (toLowerCase u code) "bubble" then ⟨"O(n²)", "O(1)", "Poor"⟩
       else ⟨"O(n log n)", "O(1)", "Good"⟩) ∧
    ¬ (generateFallbackAnalysis u code language).shows ⟨"O(n²)", "O(1)", "Fair"⟩ := by
  refine ⟨?_, ?_, fun h => efficiency_of_sorting u code hs h.2.2⟩
  · rw [report_algorithmType]; simp [algorithmType, hs]
  · have he : estimate u code =
        (if includes (toLowerCase u code) "bubble" then ⟨"O(n²)", "O(1)", "Poor"⟩
         else ⟨"O(n log n)", "O(1)", "Good"⟩) := by
      unfold estimate
      simp only [hb, hs, Bool.false_eq_true, if_false, if_true]
      split_ifs <;> rfl
    rw [← he]
    exact report_shows_estimate u code language

/-- A call of `sort` inside two loops is a witness of C24 as amended. -/
theorem sort_with_loops_agree_witness :
    (hasSorting UnicodeLower.keep "for (a of xs) \x7b for (b of a) \x7b b.sort(); \x7d \x7d" = true ∧
     hasBinarySearch UnicodeLower.keep
       "for (a of xs) \x7b for (b of a) \x7b b.sort(); \x7d \x7d" = false ∧
     nestedLoopCount "for (a of xs) \x7b for (b of a) \x7b b.sort(); \x7d \x7d" > 1) ∧
    (generateFallbackAnalysis UnicodeLower.keep
      "for (a of xs) \x7b for (b of a) \x7b b.sort(); \x7d \x7d"
      "javascript").algorithmAnalysis.algorithmType = "Sorting Algorithm" ∧
    (generateFallbackAnalysis UnicodeLower.keep
      "for (a of xs) \x7b for (b of a) \x7b b.sort(); \x7d \x7d" "javascript").shows
      (if includes (toLowerCase UnicodeLower.keep
          "for (a of xs) \x7b for (b of a) \x7b b.sort(); \x7d \x7d") "bubble"
       then ⟨"O(n²)", "O(1)", "Poor"⟩ else ⟨"O(n log n)", "O(1)", "Good"⟩) ∧
    ¬ (generateFallbackAnalysis UnicodeLower.keep
      "for (a of xs) \x7b for (b of a) \x7b b.sort(); \x7d \x7d" "javascript").shows
      ⟨"O(n²)", "O(1)", "Fair"⟩ :=
  have hs : hasSorting UnicodeLower.keep
      "for (a of xs) \x7b for (b of a) \x7b b.sort(); \x7d \x7d" = true := by decide
  have hb : hasBinarySearch UnicodeLower.keep
      "for (a of xs) \x7b for (b of a) \x7b b.sort(); \x7d \x7d" = false := by decide
  have hl : nestedLoopCount "for (a of xs) \x7b for (b of a) \x7b b.sort(); \x7d \x7d" > 1 := by
    decide
  ⟨⟨hs, hb, hl⟩, sort_with_loops_agree UnicodeLower.keep _ "javascript" hs hb hl⟩

/-! ## The combinations of the estimate -/

theorem estimate_mem_combinations (u : UnicodeLower) (code : String) :
    estimate u code ∈ estimateCombinations := by
  unfold estimate
  split_ifs <;> decide

theorem shows_of_estimate (u : UnicodeLower) (code language : String) (e : Estimate)
    (h : estimate UnicodeLower.keep code = e) (ha : asciiText code) :
    (generateFallbackAnalysis u code language).shows e := by
  rw [generateFallbackAnalysis_ascii u code language ha, ← h]
  exact report_shows_estimate UnicodeLower.keep code language

/-- C25: for every code, the time, space and efficiency of the report are one of
the eight combinations, and each of the eight is the estimate of some code; in
the combination of the report the efficiency is `Excellent` iff the time is
`O(log n)`, the space is `O(n)` iff the time is `O(2ⁿ)`, and the space is `O(V)`
iff the time is `O(V + E)`. -/
theorem estimate_combinations (u : UnicodeLower) (code language : String) :
    (∃ e ∈ estimateCombinations, (generateFallbackAnalysis u code language).shows e ∧
      (e.efficiency = "Excellent" ↔ e.timeComplexity = "O(log n)") ∧
      (e.spaceComplexity = "O(n)" ↔ e.timeComplexity = "O(2ⁿ)") ∧
      (e.spaceComplexity = "O(V)" ↔ e.timeComplexity = "O(V + E)")) ∧
    (∀ e ∈ estimateCombinations, ∃ code' : String, ∀ (u' : UnicodeLower) (language' : String),
      (generateFallbackAnalysis u' code' language').shows e) := by
  constructor
  · refine ⟨estimate u code, estimate_mem_combinations u code,
      report_shows_estimate u code language, ?_⟩
    have hall : ∀ e ∈ estimateCombinations,
        (e.efficiency = "Excellent" ↔ e.timeComplexity = "O(log n)") ∧
        (e.spaceComplexity = "O(n)" ↔ e.timeComplexity = "O(2ⁿ)") ∧
        (e.spaceComplexity = "O(V)" ↔ e.timeComplexity = "O(V + E)") := by decide
    exact hall _ (estimate_mem_combinations u code)
  · intro e he
    simp only [estimateCombinations, List.mem_cons, List.mem_singleton, List.not_mem_nil,
      or_false] at he
    rcases he with rfl | rfl | rfl | rfl | rfl | rfl | rfl | rfl
    · exact ⟨"binary search", fun u' l' => shows_of_estimate u' _ l' _ (by decide) (by decide)⟩
    · exact ⟨"bubble", fun u' l' => shows_of_estimate u' _ l' _ (by decide) (by decide)⟩
    · exact ⟨"sort", fun u' l' => shows_of_estimate u' _ l' _ (by decide) (by decide)⟩
    · exact ⟨"for (a) for (b)", fun u' l' =>
        shows_of_estimate u' _ l' _ (by decide) (by decide)⟩
    · exact ⟨"function f() \x7b return 1; \x7d", fun u' l' =>
        shows_of_estimate u' _ l' _ (by decide) (by decide)⟩
    · exact ⟨"memo", fun u' l' => shows_of_estimate u' _ l' _ (by decide) (by decide)⟩
    · exact ⟨"tree", fun u' l' => shows_of_estimate u' _ l' _ (by decide) (by decide)⟩
    · exact ⟨"let x = 1;", fun u' l' => shows_of_estimate u' _ l' _ (by decide) (by decide)⟩

/-! ## The words of the visualization and of the memory usage -/

theorem growth_iff (t : String) (ht : t ∈ timeLabels) :
    "The complexity grows " ++
        (if t = "O(1)" then "constantly"
         else if t = "O(log n)" then "logarithmically"
         else if t = "O(n)" then "linearly"
         else if t = "O(n log n)" then "linearithmically"
         else if t = "O(n²)" then "quadratically"
         else "exponentially") ++ " with input size." =
      "The complexity grows exponentially with input size." ↔
    (t = "O(2ⁿ)" ∨ t = "O(V + E)") := by
  simp only [timeLabels, List.mem_cons, List.mem_singleton, List.not_mem_nil, or_false] at ht
  rcases ht with rfl | rfl | rfl | rfl | rfl | rfl | rfl <;> decide

/-- C26: for every code whose time is `O(V + E)`, `visualization.complexityGraph`
reads `The complexity grows exponentially with input size.`, and the growth
word is `exponentially` exactly when the time label is `O(2ⁿ)` or `O(V + E)`. -/
theorem graph_grows_exponentially (u : UnicodeLower) (code language : String) :
    ((generateFallbackAnalysis u code language).hasTime "O(V + E)" →
      (generateFallbackAnalysis u code language).visualization.complexityGraph =
        "The complexity grows exponentially with input size.") ∧
    ((generateFallbackAnalysis u code language).growsExponentially ↔
      (generateFallbackAnalysis u code language).hasTime "O(2ⁿ)" ∨
      (generateFallbackAnalysis u code language).hasTime "O(V + E)") := by
  have key : (generateFallbackAnalysis u code language).growsExponentially ↔
      (generateFallbackAnalysis u code language).hasTime "O(2ⁿ)" ∨
      (generateFallbackAnalysis u code language).hasTime "O(V + E)" := by
    rw [hasTime_iff, hasTime_iff]
    exact growth_iff _ (estimate_time_mem u code)
  exact ⟨fun h => key.2 (Or.inr h), key⟩

/-- The code `tree` is a witness of C26: its time is `O(V + E)` and its growth
word is `exponentially`. -/
theorem graph_grows_exponentially_witness :
    (generateFallbackAnalysis UnicodeLower.keep "tree" "javascript").hasTime "O(V + E)" ∧
    (generateFallbackAnalysis UnicodeLower.keep "tree" "javascript").visualization.complexityGraph =
      "The complexity grows exponentially with input size." :=
  have h : (generateFallbackAnalysis UnicodeLower.keep "tree" "javascript").hasTime "O(V + E)" :=
    by decide
  ⟨h, (graph_grows_exponentially UnicodeLower.keep "tree" "javascript").1 h⟩

theorem estimate_space_cases (u : UnicodeLower) (code : String) :
    (estimate u code).spaceComplexity = "O(1)" ∨ (estimate u code).spaceComplexity = "O(n)" ∨
    (estimate u code).spaceComplexity = "O(n²)" ∨ (estimate u code).spaceComplexity = "O(V)" := by
  unfold estimate
  split_ifs <;> decide

theorem memoryUsage_iff (s : String)
    (hs : s = "O(1)" ∨ s = "O(n)" ∨ s = "O(n²)" ∨ s = "O(V)") :
    ("Memory usage is " ++
        (if s = "O(1)" then "constant" else if s = "O(n)" then "linear" else "quadratic") ++
        " with respect to input size." = memoryUsageSentence "constant" ↔ s = "O(1)") ∧
    ("Memory usage is " ++
        (if s = "O(1)" then "constant" else if s = "O(n)" then "linear" else "quadratic") ++
        " with respect to input size." = memoryUsageSentence "linear" ↔ s = "O(n)") ∧
    ("Memory usage is " ++
        (if s = "O(1)" then "constant" else if s = "O(n)" then "linear" else "quadratic") ++
        " with respect to input size." = memoryUsageSentence "quadratic" ↔
      (s = "O(n²)" ∨ s = "O(V)")) := by
  rcases hs with rfl | rfl | rfl | rfl <;> decide

/-- C27: for every code whose space is `O(V)`, `spaceComplexity.memoryUsage`
reads `Memory usage is quadratic with respect to input size.`; the word is
`constant` iff the space is `O(1)`, `linear` iff it is `O(n)`, and `quadratic`
iff it is `O(n²)` or `O(V)`. -/
theorem memory_usage_words (u : UnicodeLower) (code language : String) :
    ((generateFallbackAnalysis u code language).hasSpace "O(V)" →
      (generateFallbackAnalysis u code language).spaceComplexity.memoryUsage =
        "Memory usage is quadratic with respect to input size.") ∧
    ((generateFallbackAnalysis u code language).spaceComplexity.memoryUsage =
        memoryUsageSentence "constant" ↔
      (generateFallbackAnalysis u code language).hasSpace "O(1)") ∧
    ((generateFallbackAnalysis u code language).spaceComplexity.memoryUsage =
        memoryUsageSentence "linear" ↔
      (generateFallbackAnalysis u code language).hasSpace "O(n)") ∧
    ((generateFallbackAnalysis u code language).spaceComplexity.memoryUsage =
        memoryUsageSentence "quadratic" ↔
      ((generateFallbackAnalysis u code language).hasSpace "O(n²)" ∨
       (generateFallbackAnalysis u code language).hasSpace "O(V)")) := by
  have key := memoryUsage_iff _ (estimate_space_cases u code)
  simp only [hasSpace_iff]
  exact ⟨fun h => key.2.2.2 (Or.inr h), key.1, key.2.1, key.2.2⟩

/-- The code `tree` is a witness of C27: its space is `O(V)` and its memory
usage is called quadratic. -/
theorem memory_usage_words_witness :
    (generateFallbackAnalysis UnicodeLower.keep "tree" "javascript").hasSpace "O(V)" ∧
    (generateFallbackAnalysis UnicodeLower.keep "tree" "javascript").spaceComplexity.memoryUsage =
      "Memory usage is quadratic with respect to input size." :=
  have h : (generateFallbackAnalysis UnicodeLower.keep "tree" "javascript").hasSpace "O(V)" :=
    by decide
  ⟨h, (memory_usage_words UnicodeLower.keep "tree" "javascript").1 h⟩

/-! ## The failure responses of the handler -/

theorem analyzeTimeComplexity_error_message {J : Type} (u : UnicodeLower)
    (apiOutcome : Except JsError String) (jsonParse : String → Option J)
    (code language : String) (e : JsError)
    (h : analyzeTimeComplexity u apiOutcome jsonParse code language = .error e) :
    e.message = "Failed to analyze time complexity" := by
  cases apiOutcome with
  | ok response =>
    rw [analyzeTimeComplexity_ok] at h
    cases hv : responseValue jsonParse response <;> rw [hv] at h <;> cases h
  | error error =>
    rw [analyzeTimeComplexity_error] at h
    split_ifs at h
    injection h with h
    rw [← h]

theorem failureResponse_default {J : Type} (e : JsError) (h : ¬ transientMarker e.message) :
    (failureResponse e : HandlerResponse J) =
      { status := 500, success := false,
        message := "Failed to analyze time complexity. Please try again.",
        data := none, isFallback := none } := by
  have h1 : includes e.message "503" = false :=
    (includes_eq_false_iff _ _).2 (fun c => h (Or.inl c))
  have h2 : includes e.message "429" = false :=
    (includes_eq_false_iff _ _).2 (fun c => h (Or.inr (Or.inl c)))
  have h3 : includes e.message "UNAVAILABLE" = false :=
    (includes_eq_false_iff _ _).2 (fun c => h (Or.inr (Or.inr c)))
  simp [failureResponse, h1, h2, h3]

theorem fixed_message_no_marker : ¬ transientMarker "Failed to analyze time complexity" :=
  fun c => absurd ((transientMarker_iff _).1 c) (by decide)

theorem isFallback_error {J : Type} (flagOf : J → Except JsError Bool) (analysis : Analysis J)
    (e : JsError) (h : isFallback flagOf analysis = .error e) :
    ∃ v, flagOf v = .error e := by
  cases analysis with
  | parsed value => exact ⟨value, h⟩
  | fallback report => cases h

/-- C28: every error raised by `analyzeTimeComplexity` has the message
`Failed to analyze time complexity`, which contains none of `503`, `429`,
`UNAVAILABLE`; so a failure of `analyzeTimeComplexity` makes the handler answer
with status 500 and the default message, and, the errors thrown by the flag
expression carrying no marker either, every answer of the error path carries
the default message. -/
theorem failure_default_message {J : Type} (u : UnicodeLower)
    (apiOutcome : Except JsError String) (jsonParse : String → Option J)
    (flagOf : J → Except JsError Bool) (code : String) (language : Option String) :
    (∀ e, analyzeTimeComplexity u apiOutcome jsonParse code (language.getD "javascript") =
        .error e →
      e.message = "Failed to analyze time complexity" ∧ ¬ transientMarker e.message ∧
      (code ≠ "" →
        analyzeComplexityHandler u apiOutcome jsonParse flagOf (some code) language =
          { status := 500, success := false,
            message := "Failed to analyze time complexity. Please try again.",
            data := none, isFallback := none })) ∧
    ((∀ v e, flagOf v = .error e → ¬ transientMarker e.message) →
      (analyzeComplexityHandler u apiOutcome jsonParse flagOf (some code) language).status = 500 →
      (analyzeComplexityHandler u apiOutcome jsonParse flagOf (some code) language).message =
        "Failed to analyze time complexity. Please try again.") := by
  constructor
  · intro e h
    have hm := analyzeTimeComplexity_error_message u apiOutcome jsonParse code _ e h
    have hn : ¬ transientMarker e.message := by rw [hm]; exact fixed_message_no_marker
    refine ⟨hm, hn, fun hc => ?_⟩
    simp only [analyzeComplexityHandler, if_neg hc, h]
    exact failureResponse_default e hn
  · intro hf
    simp only [analyzeComplexityHandler]
    by_cases hc : code = ""
    · simp [hc]
    · rw [if_neg hc]
      cases ha : analyzeTimeComplexity u apiOutcome jsonParse code (language.getD "javascript") with
      | error e =>
        intro _
        have hm := analyzeTimeComplexity_error_message u apiOutcome jsonParse code _ e ha
        have hn : ¬ transientMarker e.message := by rw [hm]; exact fixed_message_no_marker
        simp only [failureResponse_default e hn]
      | ok analysis =>
        cases hi : isFallback flagOf analysis with
        | ok flag => simp [hi]
        | error e =>
          obtain ⟨v, hv⟩ := isFallback_error flagOf analysis e hi
          simp only [hi, failureResponse_default e (hf v e hv), implies_true]

/-- An answer `null` of the AI service, on which the flag expression throws, is
a witness of C28: the handler answers with status 500 and the default message. -/
theorem failure_default_message_witness :
    ((∀ v e, nullFlag v = .error e → ¬ transientMarker e.message) ∧
     (analyzeComplexityHandler UnicodeLower.keep (.ok "null") parseNull nullFlag
       (some "let x = 1;") none).status = 500) ∧
    (analyzeComplexityHandler UnicodeLower.keep (.ok "null") parseNull nullFlag
      (some "let x = 1;") none).message =
      "Failed to analyze time complexity. Please try again." :=
  have hf : ∀ v e, nullFlag v = .error e → ¬ transientMarker e.message := by
    intro v e h
    have he : e = ⟨"Cannot read properties of null (reading 'overview')"⟩ := by
      injection h with h; exact h.symm
    rw [he]
    exact fun c => absurd ((transientMarker_iff _).1 c) (by decide)
  have hs : (analyzeComplexityHandler UnicodeLower.keep (.ok "null") parseNull nullFlag
      (some "let x = 1;") none).status = 500 := by decide
  ⟨⟨hf, hs⟩, (failure_default_message UnicodeLower.keep (.ok "null") parseNull nullFlag
    "let x = 1;" none).2 hf hs⟩

/-! ## Loop constructs -/

theorem matchHeader_some (s : List Char) (n : Nat) (h : matchHeader s = some n) :
    (s.dropWhile isWhiteSpace).head? = some '(' := by
  unfold matchHeader at h
  split at h
  · rename_i r heq
    rw [heq]; rfl
  · cases h

theorem matchKeyword_some (kw : String) (t : List Char) (n : Nat)
    (h : matchKeyword kw.toList t = some n) : followedByParen kw t = true := by
  unfold matchKeyword at h
  split_ifs at h with hp
  cases hm : matchHeader (List.drop kw.toList.length t) with
  | none => rw [hm] at h; cases h
  | some m =>
    unfold followedByParen
    rw [hp, matchHeader_some _ m hm]
    rfl

theorem matchLoopAt_some (t : List Char) (n : Nat) (h : matchLoopAt t = some n) :
    ∃ kw ∈ loopKeywords, followedByParen kw t = true := by
  unfold matchLoopAt at h
  cases h1 : matchKeyword "for".toList t with
  | some m => exact ⟨"for", by decide, matchKeyword_some "for" t m h1⟩
  | none =>
    rw [h1] at h
    cases h2 : matchKeyword "while".toList t with
    | some m => exact ⟨"while", by decide, matchKeyword_some "while" t m h2⟩
    | none =>
      rw [h2] at h
      cases h3 : matchKeyword "forEach".toList t with
      | some m => exact ⟨"forEach", by decide, matchKeyword_some "forEach" t m h3⟩
      | none => rw [h3] at h; cases h

theorem matchLoopsFrom_nil (s : List Char) :
    (∀ t, t <:+ s → matchLoopAt t = none) → ∀ skip, matchLoopsFrom skip s = [] := by
  induction s with
  | nil => intro _ skip; cases skip <;> rfl
  | cons c rest ih =>
    intro h skip
    have hrest : ∀ t, t <:+ rest → matchLoopAt t = none :=
      fun t ht => h t (ht.trans (List.suffix_cons c rest))
    cases skip with
    | succ k => exact ih hrest k
    | zero =>
      have hc : matchLoopAt (c :: rest) = none := h _ (List.suffix_refl _)
      simp only [matchLoopsFrom, hc]
      exact ih hrest 0

theorem nestedLoopCount_of_noLoopHeader (code : String) (h : noLoopHeader code) :
    nestedLoopCount code = 0 := by
  have hnone : ∀ t, t <:+ code.toList → matchLoopAt t = none := by
    intro t ht
    cases hm : matchLoopAt t with
    | none => rfl
    | some n =>
      obtain ⟨kw, hk, hf⟩ := matchLoopAt_some t n hm
      rw [h t ht kw hk] at hf
      cases hf
  unfold nestedLoopCount loopPatterns
  rw [matchLoopsFrom_nil code.toList hnone 0]
  rfl

theorem noLoopHeader_iff (code : String) :
    noLoopHeader code ↔
      code.toList.tails.all (fun t => loopKeywords.all (fun kw => !followedByParen kw t)) =
        true := by
  simp only [noLoopHeader, List.all_eq_true, List.mem_tails, Bool.not_eq_true']

/-- C30: for every code in which no occurrence of `for`, `while` or `forEach` is
followed, after optional white space, by an opening parenthesis, the number of
loop constructs is 0. -/
theorem loops_need_parenthesis (code : String) (h : noLoopHeader code) :
    nestedLoopCount code = 0 :=
  nestedLoopCount_of_noLoopHeader code h

/-- The nested loop written in Python is a witness of C30: its loops are not
counted and its report is the default one, `General Algorithm` with time `O(n)`. -/
theorem loops_need_parenthesis_witness :
    noLoopHeader pythonSample ∧ nestedLoopCount pythonSample = 0 ∧
    (generateFallbackAnalysis UnicodeLower.keep pythonSample
      "python").algorithmAnalysis.algorithmType = "General Algorithm" ∧
    (generateFallbackAnalysis UnicodeLower.keep pythonSample "python").hasTime "O(n)" :=
  have h : noLoopHeader pythonSample := (noLoopHeader_iff pythonSample).2 (by decide)
  ⟨h, loops_need_parenthesis pythonSample h, by decide, by decide⟩

/-! ## Blank code -/

theorem blank_stable (c : Char) (h : c = ' ' ∨ c = '\t' ∨ c = '\n') : stableChar c := by
  rcases h with rfl | rfl | rfl <;> decide

theorem blank_whiteSpace (c : Char) (h : c = ' ' ∨ c = '\t' ∨ c = '\n') :
    isWhiteSpace c = true := by
  rcases h with rfl | rfl | rfl <;> decide

theorem toLowerCase_blank (u : UnicodeLower) (code : String) (h : blank code) :
    toLowerCase u code = code := by
  unfold toLowerCase
  have := lowerFrom_stable_append u code.toList (fun c hc => blank_stable c (h c hc)) [] []
  rw [List.append_nil] at this
  rw [this]
  simp [lowerFrom]

theorem not_occurs_blank (w code : String) (h : blank code)
    (hw : ∃ c ∈ w.toList, ¬ (c = ' ' ∨ c = '\t' ∨ c = '\n')) : ¬ occurs w code := by
  obtain ⟨c, hc, hn⟩ := hw
  intro ho
  exact hn (h c (ho.subset hc))

theorem includes_blank (w code : String) (h : blank code)
    (hw : ∃ c ∈ w.toList, ¬ (c = ' ' ∨ c = '\t' ∨ c = '\n')) : includes code w = false :=
  (includes_eq_false_iff _ _).2 (not_occurs_blank w code h hw)

theorem splitList_mem (sep : Char) (s : List Char) :
    ∀ piece ∈ splitList sep s, ∀ c ∈ piece, c ∈ s := by
  induction s with
  | nil =>
    intro piece hp c hc
    simp only [splitList, List.mem_singleton] at hp
    subst hp
    cases hc
  | cons d rest ih =>
    intro piece hp c hc
    unfold splitList at hp
    split_ifs at hp with hd
    · rcases List.mem_cons.1 hp with rfl | hp'
      · cases hc
      · exact List.mem_cons_of_mem d (ih piece hp' c hc)
    · cases hs : splitList sep rest with
      | nil =>
        rw [hs] at hp
        simp only [List.mem_singleton] at hp
        subst hp
        rw [List.mem_singleton] at hc
        subst hc
        exact List.mem_cons_self _ _
      | cons first others =>
        rw [hs] at hp
        simp only [List.mem_cons] at hp
        rcases hp with rfl | hp'
        · rcases List.mem_cons.1 hc with rfl | hc'
          · exact List.mem_cons_self _ _
          · exact List.mem_cons_of_mem d (ih first (by rw [hs]; exact List.mem_cons_self _ _) c hc')
        · exact List.mem_cons_of_mem d
            (ih piece (by rw [hs]; exact List.mem_cons_of_mem _ hp') c hc)

theorem trimList_whiteSpace (piece : List Char) (h : ∀ c ∈ piece, isWhiteSpace c = true) :
    trimList piece = [] := by
  unfold trimList
  rw [List.dropWhile_eq_nil_iff.2 h]
  rfl

theorem codeLines_blank (code : String) (h : blank code) : codeLines code = [] := by
  unfold codeLines
  rw [List.map_eq_nil_iff, List.filter_eq_nil_iff]
  intro piece hp
  have hw : ∀ c ∈ piece, isWhiteSpace c = true :=
    fun c hc => blank_whiteSpace c (h c (splitList_mem '\n' code.toList piece hp c hc))
  rw [trimList_whiteSpace piece hw]
  decide

theorem noLoopHeader_blank (code : String) (h : blank code) : noLoopHeader code := by
  intro t ht kw hk
  have hkw : ∃ c rest, kw.toList = c :: rest ∧ ¬ (c = ' ' ∨ c = '\t' ∨ c = '\n') := by
    simp only [loopKeywords, List.mem_cons, List.mem_singleton, List.not_mem_nil, or_false] at hk
    rcases hk with rfl | rfl | rfl
    · exact ⟨'f', "or".toList, rfl, by decide⟩
    · exact ⟨'w', "hile".toList, rfl, by decide⟩
    · exact ⟨'f', "orEach".toList, rfl, by decide⟩
  obtain ⟨c, rest, hkw, hn⟩ := hkw
  unfold followedByParen
  rw [hkw]
  cases t with
  | nil => rfl
  | cons d t' =>
    have hd : d = ' ' ∨ d = '\t' ∨ d = '\n' := h d (ht.subset (List.mem_cons_self d t'))
    have hcd : c ≠ d := fun e => hn (e ▸ hd)
    simp [List.isPrefixOf, hcd]

theorem vocabulary_not_blank :
    ∀ w ∈ vocabulary, ∃ c ∈ w.toList, ¬ (c = ' ' ∨ c = '\t' ∨ c = '\n') := by
  decide

theorem blank_no_vocabulary (u : UnicodeLower) (code : String) (h : blank code) :
    ∀ w ∈ vocabulary, ¬ occurs w (toLowerCase u code) := by
  intro w hw
  rw [toLowerCase_blank u code h]
  exact not_occurs_blank w code h (vocabulary_not_blank w hw)

theorem hasRecursion_blank (code : String) (h : blank code) : hasRecursion code = false := by
  have hf : includes code "function" = false := includes_blank "function" code h (by decide)
  simp [hasRecursion, hf]

theorem algorithmType_of_no_signal (u : UnicodeLower) (code : String)
    (hv : ∀ w ∈ vocabulary, ¬ occurs w (toLowerCase u code))
    (hr : hasRecursion code = false) (hl : nestedLoopCount code ≤ 1) :
    algorithmType u code = "General Algorithm" := by
  obtain ⟨h1, h2, h3, h4, h5, h6⟩ := signals_of_no_vocabulary u code hv
  have hl' : ¬ nestedLoopCount code > 1 := Nat.not_lt.2 hl
  simp [algorithmType, h1, h2, h3, h4, h5, h6, hr, hl']

theorem estimate_of_no_signal (u : UnicodeLower) (code : String)
    (hv : ∀ w ∈ vocabulary, ¬ occurs w (toLowerCase u code))
    (hr : hasRecursion code = false) (hl : nestedLoopCount code ≤ 1) :
    estimate u code = ⟨"O(n)", "O(1)", "Good"⟩ := by
  obtain ⟨h1, h2, _, h4, h5, h6⟩ := signals_of_no_vocabulary u code hv
  have hl' : ¬ nestedLoopCount code > 1 := Nat.not_lt.2 hl
  simp [estimate, h1, h2, h4, h5, h6, hr, hl']

/-- C29: for the empty code and for every code made of spaces, tabs and
newlines only, `generateFallbackAnalysis` returns the default report:
classification `General Algorithm`, time `O(n)`, space `O(1)`, efficiency
`Good`, an overview that states `0 lines of logic with 0 loop structures`, and a
`codeBreakdown` of exactly one entry. -/
theorem blank_code_default (u : UnicodeLower) (code language : String) (h : blank code) :
    (generateFallbackAnalysis u code language).algorithmAnalysis.algorithmType =
      "General Algorithm" ∧
    (generateFallbackAnalysis u code language).shows ⟨"O(n)", "O(1)", "Good"⟩ ∧
    (generateFallbackAnalysis u code language).overview =
      "This appears to be a general algorithm written in " ++ language ++
        ". The code contains 0 lines of logic with 0 loop structures." ∧
    (generateFallbackAnalysis u code language).codeBreakdown.length = 1 := by
  have hv := blank_no_vocabulary u code h
  have hr := hasRecursion_blank code h
  have hn : nestedLoopCount code = 0 :=
    nestedLoopCount_of_noLoopHeader code (noLoopHeader_blank code h)
  have hl : nestedLoopCount code ≤ 1 := by omega
  have ha := algorithmType_of_no_signal u code hv hr hl
  have he := estimate_of_no_signal u code hv hr hl
  have hlines := codeLines_blank code h
  have hlow : toLowerCase u "General Algorithm" = "general algorithm" := by
    rw [toLowerCase_ascii u "General Algorithm" (by decide)]
    decide
  refine ⟨ha, ?_, ?_, ?_⟩
  · rw [← he]
    exact report_shows_estimate u code language
  · show "This appears to be a " ++ toLowerCase u (algorithmType u code) ++ " written in " ++
      language ++ ". The code contains " ++ toString (codeLines code).length ++
      " lines of logic with " ++ toString (nestedLoopCount code) ++ " loop structures." = _
    rw [ha, hlow, hlines, hn]
    apply String.ext
    simp only [String.data_append, List.append_assoc]
    rfl
  · show (generateCodeBreakdown (estimate u code).timeComplexity (nestedLoopCount code)).length = 1
    rw [hn]
    rfl

/-- The empty code and a code of spaces, a tab and newlines are witnesses of C29. -/
theorem blank_code_default_witness :
    (blank "" ∧ blank "  \n\t \n") ∧
    (generateFallbackAnalysis UnicodeLower.keep "" "javascript").overview =
      "This appears to be a general algorithm written in " ++ "javascript" ++
        ". The code contains 0 lines of logic with 0 loop structures." ∧
    (generateFallbackAnalysis UnicodeLower.keep "  \n\t \n"
      "javascript").algorithmAnalysis.algorithmType = "General Algorithm" ∧
    (generateFallbackAnalysis UnicodeLower.keep "  \n\t \n" "javascript").shows
      ⟨"O(n)", "O(1)", "Good"⟩ ∧
    (generateFallbackAnalysis UnicodeLower.keep "  \n\t \n" "javascript").codeBreakdown.length = 1 :=
  have h0 : blank "" := by decide
  have h1 : blank "  \n\t \n" := by decide
  ⟨⟨h0, h1⟩, (blank_code_default UnicodeLower.keep "" "javascript" h0).2.2.1,
    (blank_code_default UnicodeLower.keep "  \n\t \n" "javascript" h1).1,
    (blank_code_default UnicodeLower.keep "  \n\t \n" "javascript" h1).2.1,
    (blank_code_default UnicodeLower.keep "  \n\t \n" "javascript" h1).2.2.2⟩

end CodeJourney
